import Mathlib

/-!
# mini-jackbox: room registry and round engine of `server.js`

A shallow embedding of the Socket.IO handlers of `src/server.js`
(`criarSala`, `entrarSala`, `iniciarRodada`, `responder`, `disconnect`), of
`gerarCodigoSala`, `obterPerguntaExemplo` and `finalizarRodada`, and of the two
`setTimeout` callbacks.

Modelling decisions.

* A JavaScript object with string keys is the list of its own properties in
  key order (`Objeto`): assigning to a present key keeps its place, assigning
  to a new key appends, `delete` removes. The keys stored by the program are
  generated room codes and socket ids, never array indices, so key order is
  insertion order. Lookups are lookups of own properties: a code that names a
  property inherited from `Object.prototype` is outside the model.
* Room objects live in a store (`Estado.objetos`) and the global `salas` maps a
  code to a reference into it: the callback armed at the end of
  `finalizarRodada` closes over the room object `sala`, not over its code, and
  goes on reading and writing that object after `delete salas[codigo]`.
* `socket.id` is a token issued by the transport; only equality on it is used.
* `pontos` starts at 0 and only changes by `+= 1`; it is a natural number
  (a double counts exactly up to 2^53).
* `Number(indice)` is a builtin: `responder` is given its result, a `Numero`.
  The name sent with `entrarSala` is a string or is omitted.
* A handler returns the new state and the list of its effects in program
  order: events sent, transport-room joins and leaves, timers armed.
  `console.log` is left out.
* Timers fire at any time after they are armed (`Acao.disparar`); wall-clock
  time is not modelled.
-/

namespace MiniJackbox

/-! ## Values -/

/-- The identity of a connection, `socket.id`. -/
abbrev SocketId := Nat

/-- A JavaScript number: NaN, an infinity, or the finite value
`mant / 2 ^ expo` (every finite double has this form). -/
inductive Numero
  | nan
  | infinito (negativo : Bool)
  | finito (mant : Int) (expo : Nat)
  deriving DecidableEq, Repr

namespace Numero

/-- The number denoted by an integer literal of the source. -/
def deNat (n : Nat) : Numero := .finito n 0

/-- Strict equality `===` of two numbers: NaN equals nothing, finite values
are compared by value. -/
def igual : Numero → Numero → Bool
  | .finito m e, .finito m' e' => decide (m * 2 ^ e' = m' * 2 ^ e)
  | .infinito a, .infinito b => a == b
  | _, _ => false

/-- The test `Number.isNaN`. -/
def isNaN : Numero → Bool
  | .nan => true
  | _ => false

/-- Whether the number is an integer (the test `Number.isInteger`). -/
def inteiro : Numero → Bool
  | .finito m e => decide (m % (2 : Int) ^ e = 0)
  | _ => false

end Numero

/-! ## Objects as ordered property lists -/

/-- The own properties of an object, in key order. -/
abbrev Objeto (κ : Type) (α : Type) := List (κ × α)

namespace Objeto

variable {κ α : Type} [DecidableEq κ]

/-- Property read `o[k]`; `none` is `undefined`. -/
def obter : Objeto κ α → κ → Option α
  | [], _ => none
  | (k', v) :: r, k => if k' = k then some v else obter r k

/-- Property write `o[k] = v`: a present key keeps its position, a new key
goes last. -/
def definir : Objeto κ α → κ → α → Objeto κ α
  | [], k, v => [(k, v)]
  | (k', v') :: r, k, v => if k' = k then (k, v) :: r else (k', v') :: definir r k v

/-- Property removal `delete o[k]`. -/
def apagar (o : Objeto κ α) (k : κ) : Objeto κ α :=
  o.filter (fun p => decide (p.1 ≠ k))

/-- The keys in order, `Object.keys(o)`. -/
def chaves (o : Objeto κ α) : List κ := o.map Prod.fst

/-- The values in order, `Object.values(o)`. -/
def valores (o : Objeto κ α) : List α := o.map Prod.snd

end Objeto

/-! ## Data model (lines 17-33) -/

/-- A participant record `{ nome, pontos }`. -/
structure Jogador where
  nome : String
  pontos : Nat
  deriving DecidableEq, Repr

/-- A question `{ enunciado, alternativas, correta }`. -/
structure Pergunta where
  enunciado : String
  alternativas : List String
  correta : Nat
  deriving DecidableEq, Repr

/-- The phase of a room: `"lobby" | "pergunta" | "resultado"`. -/
inductive Fase
  | lobby
  | pergunta
  | resultado
  deriving DecidableEq, Repr

/-- A room object. `perguntaAtual = none` is `null`. -/
structure Sala where
  hostId : SocketId
  jogadores : Objeto SocketId Jogador
  fase : Fase
  perguntaAtual : Option Pergunta
  respostasRecebidas : Objeto SocketId Numero
  deriving DecidableEq, Repr

/-- The program state: the room objects created so far, by reference, and the
global `salas`, from room code to reference. -/
structure Estado where
  objetos : List Sala
  salas : Objeto String Nat
  deriving DecidableEq, Repr

/-- An event name with its payload. -/
inductive Evento
  | salaCriada (codigo : String)
  | erro (mensagem : String)
  | entrouNaSala (codigo : String) (nome : String)
  | estadoLobby (jogadores : List String)
  | novaPergunta (enunciado : String) (alternativas : List String) (tempo : Nat)
  | respostaRecebida
  | resultadoRodada (correta : Nat) (placar : List Jogador)
  deriving DecidableEq, Repr

/-- A callback given to `setTimeout`. `prazo codigo` is the round deadline of
line 112, which calls `finalizarRodada(codigo)`; `retorno ref codigo` is the
callback of line 194, which holds the room object `ref` and the code. -/
inductive Timer
  | prazo (codigo : String)
  | retorno (ref : Nat) (codigo : String)
  deriving DecidableEq, Repr

/-- One effect of a handler on the outside world. `emit` is `socket.emit`
(one connection), `broadcast` is `io.to(codigo).emit` (a transport room),
`join` and `leave` change the membership of a transport room, `setTimeout`
arms a timer with a delay in milliseconds. -/
inductive Efeito
  | emit (socket : SocketId) (ev : Evento)
  | broadcast (codigo : String) (ev : Evento)
  | join (socket : SocketId) (codigo : String)
  | leave (socket : SocketId) (codigo : String)
  | setTimeout (t : Timer) (ms : Nat)
  deriving DecidableEq, Repr

namespace Estado

/-- The state at process start: `const salas = {}`. -/
def vazio : Estado := ⟨[], []⟩

/-- The room object behind `salas[codigo]`, with its reference. -/
def sala? (s : Estado) (codigo : String) : Option (Nat × Sala) :=
  match Objeto.obter s.salas codigo with
  | none => none
  | some ref =>
    match s.objetos[ref]? with
    | none => none
    | some sala => some (ref, sala)

/-- The room found by looking a code up in the registry. -/
def buscar (s : Estado) (codigo : String) : Option Sala :=
  (s.sala? codigo).map Prod.snd

/-- A write to the fields of the room object `ref`. -/
def gravar (s : Estado) (ref : Nat) (sala : Sala) : Estado :=
  { s with objetos := s.objetos.set ref sala }

end Estado

/-- The names `Object.values(sala.jogadores).map((j) => j.nome)`. -/
def nomes (sala : Sala) : List String :=
  (Objeto.valores sala.jogadores).map Jogador.nome

/-! ## `gerarCodigoSala` and `obterPerguntaExemplo` (lines 35-52) -/

/-- The alphabet of room codes. -/
def letras : String := "ABCDEFGHJKMNPQRSTUVWXYZ"

/-- One value of `Math.floor(Math.random() * letras.length)`. -/
abbrev Sorteado := Fin 23

/-- The character `letras[k]`. -/
def letra (k : Sorteado) : Char :=
  letras.toList.get (k.cast (by decide))

/-- The loop of lines 38-41 on four draws. -/
def montarCodigo (a b c d : Sorteado) : String :=
  [a, b, c, d].foldl (fun codigo k => codigo.push (letra k)) ""

/-- Code generation on a finite supply of random draws. Each attempt uses four
draws; a code already in `salas` starts the next attempt. `none`: the supply
ran out before an attempt succeeded. -/
def gerarCodigoSala (salas : Objeto String Nat) : List Sorteado → Option String
  | a :: b :: c :: d :: resto =>
    if (Objeto.obter salas (montarCodigo a b c d)).isSome then gerarCodigoSala salas resto
    else some (montarCodigo a b c d)
  | _ => none

/-- The sample question. -/
def obterPerguntaExemplo : Pergunta :=
  { enunciado := "Quanto é 2 + 2?", alternativas := ["3", "4", "5", "22"], correta := 1 }

/-! ## Handlers (lines 55-166) -/

/-- The room object created at lines 62-68. -/
def salaNova (socket : SocketId) : Sala :=
  { hostId := socket, jogadores := [], fase := .lobby, perguntaAtual := none,
    respostasRecebidas := [] }

/-- Handler of `criarSala` (lines 60-72). `none`: `gerarCodigoSala` did not
return on these draws. -/
def criarSala (s : Estado) (socket : SocketId) (sorteados : List Sorteado) :
    Option (Estado × List Efeito) :=
  match gerarCodigoSala s.salas sorteados with
  | none => none
  | some codigo =>
    some ({ objetos := s.objetos ++ [salaNova socket],
            salas := Objeto.definir s.salas codigo s.objetos.length },
          [.join socket codigo, .emit socket (.salaCriada codigo)])

/-- The stored name `String(nome || "Jogador")` for a name that is a string
or is omitted. -/
def nomeOuPadrao : Option String → String
  | none => "Jogador"
  | some n => if n = "" then "Jogador" else n

/-- Handler of `entrarSala` (lines 75-93). -/
def entrarSala (s : Estado) (socket : SocketId) (codigo : String) (nome : Option String) :
    Estado × List Efeito :=
  match s.sala? codigo with
  | none => (s, [.emit socket (.erro "Sala não encontrada.")])
  | some (ref, sala) =>
    if sala.fase ≠ .lobby then
      (s, [.emit socket (.erro "Jogo já iniciou. Aguarde a próxima.")])
    else
      let sala' : Sala :=
        { sala with
          jogadores := Objeto.definir sala.jogadores socket
            { nome := nomeOuPadrao nome, pontos := 0 } }
      (s.gravar ref sala',
        [.join socket codigo,
         .emit socket (.entrouNaSala codigo (nomeOuPadrao nome)),
         .broadcast codigo (.estadoLobby (nomes sala'))])

/-- Handler of `iniciarRodada` (lines 96-115). -/
def iniciarRodada (s : Estado) (socket : SocketId) (codigo : String) : Estado × List Efeito :=
  match s.sala? codigo with
  | none => (s, [])
  | some (ref, sala) =>
    if sala.hostId ≠ socket then (s, [])
    else
      let p := obterPerguntaExemplo
      let sala' : Sala :=
        { sala with fase := .pergunta, perguntaAtual := some p, respostasRecebidas := [] }
      (s.gravar ref sala',
        [.broadcast codigo (.novaPergunta p.enunciado p.alternativas 15),
         .setTimeout (.prazo codigo) 15000])

/-- Handler of `responder` (lines 118-133); `i` is `Number(indice)`. -/
def responder (s : Estado) (socket : SocketId) (codigo : String) (i : Numero) :
    Estado × List Efeito :=
  match s.sala? codigo with
  | none => (s, [])
  | some (ref, sala) =>
    if sala.fase ≠ .pergunta then (s, [])
    else if (Objeto.obter sala.jogadores socket).isNone then (s, [])
    else if i.isNaN then (s, [])
    else if (Objeto.obter sala.respostasRecebidas socket).isNone then
      (s.gravar ref
          { sala with respostasRecebidas := Objeto.definir sala.respostasRecebidas socket i },
        [.emit socket .respostaRecebida])
    else (s, [])

/-- One iteration of the loop of lines 138-164 of the `disconnect` handler,
for the key `codigo`; the effects so far are carried along. -/
def disconnectSala (socket : SocketId) (acc : Estado × List Efeito) (codigo : String) :
    Estado × List Efeito :=
  match acc.1.sala? codigo with
  | none => acc
  | some (ref, sala) =>
    if sala.hostId = socket then
      ({ acc.1 with salas := Objeto.apagar acc.1.salas codigo },
        acc.2 ++ [.broadcast codigo (.erro "Host saiu. Sala encerrada.")]
          ++ (Objeto.chaves sala.jogadores).map (fun idJog => Efeito.leave idJog codigo))
    else if (Objeto.obter sala.jogadores socket).isSome then
      let sala' : Sala := { sala with jogadores := Objeto.apagar sala.jogadores socket }
      (acc.1.gravar ref sala', acc.2 ++ [.broadcast codigo (.estadoLobby (nomes sala'))])
    else acc

/-- Handler of `disconnect` (lines 136-165): the loop runs over the keys
`salas` had when it started. -/
def disconnect (s : Estado) (socket : SocketId) : Estado × List Efeito :=
  (Objeto.chaves s.salas).foldl (disconnectSala socket) (s, [])

/-! ## `finalizarRodada` and its timer (lines 168-200) -/

/-- The scoring loop of lines 177-181 over the entries of
`respostasRecebidas`. -/
def pontuar (correta : Nat) (jogadores : Objeto SocketId Jogador) :
    List (SocketId × Numero) → Objeto SocketId Jogador
  | [] => jogadores
  | (id, resp) :: resto =>
    match Numero.igual resp (Numero.deNat correta), Objeto.obter jogadores id with
    | true, some j =>
      pontuar correta (Objeto.definir jogadores id { j with pontos := j.pontos + 1 }) resto
    | _, _ => pontuar correta jogadores resto

/-- The test of line 178 for the entry of `id`: whether
`respostasRecebidas[id] === correta` (false when there is no entry). -/
def acertou (correta : Nat) (respostas : Objeto SocketId Numero) (id : SocketId) : Bool :=
  match Objeto.obter respostas id with
  | some resp => Numero.igual resp (Numero.deNat correta)
  | none => false

/-- The comparator `(a, b) => b.pontos - a.pontos`. -/
def compararPontos (a b : Jogador) : Int := (b.pontos : Int) - (a.pontos : Int)

/-- The result of `Array.prototype.sort` with the comparator of line 186: a
stable sort, `a` stays before `b` unless the comparator is positive. -/
def ordenarPlacar (l : List Jogador) : List Jogador :=
  l.insertionSort (fun a b => compararPontos a b ≤ 0)

/-- The scoreboard of lines 184-186. -/
def placar (sala : Sala) : List Jogador :=
  ordenarPlacar ((Objeto.valores sala.jogadores).map
    (fun j => { nome := j.nome, pontos := j.pontos }))

/-- Function `finalizarRodada` (lines 169-200). `none`: reading
`sala.perguntaAtual.correta` throws because `perguntaAtual` is `null`. -/
def finalizarRodada (s : Estado) (codigo : String) : Option (Estado × List Efeito) :=
  match s.sala? codigo with
  | none => some (s, [])
  | some (ref, sala) =>
    if sala.fase ≠ .pergunta then some (s, [])
    else
      match sala.perguntaAtual with
      | none => none
      | some p =>
        let sala' : Sala :=
          { sala with
            fase := .resultado,
            jogadores := pontuar p.correta sala.jogadores sala.respostasRecebidas }
        some (s.gravar ref sala',
          [.broadcast codigo (.resultadoRodada p.correta (placar sala')),
           .setTimeout (.retorno ref codigo) 5000])

/-- The callback of lines 194-199 on the room object `ref`. A reference
outside the store does not occur: the callback holds an object of the store. -/
def voltarAoLobby (s : Estado) (ref : Nat) (codigo : String) : Estado × List Efeito :=
  match s.objetos[ref]? with
  | none => (s, [])
  | some sala =>
    let sala' : Sala := { sala with fase := .lobby }
    (s.gravar ref sala', [.broadcast codigo (.estadoLobby (nomes sala'))])

/-! ## The event loop -/

/-- What the event loop can run next: a message from a connection, a
connection loss, or the `k`-th armed timer. -/
inductive Acao
  | criarSala (socket : SocketId) (sorteados : List Sorteado)
  | entrarSala (socket : SocketId) (codigo : String) (nome : Option String)
  | iniciarRodada (socket : SocketId) (codigo : String)
  | responder (socket : SocketId) (codigo : String) (i : Numero)
  | disconnect (socket : SocketId)
  | disparar (k : Nat)
  deriving DecidableEq, Repr

/-- The program state with the timers that are armed and have not fired. -/
structure Sistema where
  estado : Estado
  timers : List Timer
  deriving DecidableEq, Repr

/-- The timers armed by a list of effects. -/
def armados : List Efeito → List Timer
  | [] => []
  | .setTimeout t _ :: r => t :: armados r
  | _ :: r => armados r

/-- The firing of a timer. -/
def dispararTimer (s : Estado) : Timer → Option (Estado × List Efeito)
  | .prazo codigo => finalizarRodada s codigo
  | .retorno ref codigo => some (voltarAoLobby s ref codigo)

/-- The handler or callback an action runs, on the program state. `none`: the
action cannot run to completion (no such timer, `gerarCodigoSala` does not
return, or the callback throws). -/
def executarAcao (st : Sistema) : Acao → Option (Estado × List Efeito)
  | .criarSala socket sorteados => criarSala st.estado socket sorteados
  | .entrarSala socket codigo nome => some (entrarSala st.estado socket codigo nome)
  | .iniciarRodada socket codigo => some (iniciarRodada st.estado socket codigo)
  | .responder socket codigo i => some (responder st.estado socket codigo i)
  | .disconnect socket => some (disconnect st.estado socket)
  | .disparar k =>
    match st.timers[k]? with
    | none => none
    | some t => dispararTimer st.estado t

/-- The timers still armed once an action has been taken off the queue. -/
def timersRestantes (st : Sistema) : Acao → List Timer
  | .disparar k => st.timers.eraseIdx k
  | _ => st.timers

/-- One turn of the event loop. -/
def passo (st : Sistema) (a : Acao) : Option (Sistema × List Efeito) :=
  match executarAcao st a with
  | none => none
  | some (s', efeitos) =>
    some ({ estado := s', timers := timersRestantes st a ++ armados efeitos }, efeitos)

/-- The system at process start. -/
def Sistema.inicial : Sistema := ⟨Estado.vazio, []⟩

/-- A run of the event loop on a list of actions, with the effects of each
turn in order. -/
def executar : Sistema → List Acao → Option (Sistema × List (List Efeito))
  | st, [] => some (st, [])
  | st, a :: resto =>
    match passo st a with
    | none => none
    | some (st', efeitos) =>
      match executar st' resto with
      | none => none
      | some (st'', saida) => some (st'', efeitos :: saida)

/-- The states the system can be in. -/
inductive Alcancavel : Sistema → Prop
  | inicial : Alcancavel Sistema.inicial
  | passo {st st' : Sistema} {a : Acao} {efeitos : List Efeito} :
      Alcancavel st → passo st a = some (st', efeitos) → Alcancavel st'

/-! ## Descriptions used by the statements -/

/-- The room object `sala` once `socket` has been deleted from its
`jogadores` (line 158). -/
def semJogador (socket : SocketId) (sala : Sala) : Sala :=
  { sala with jogadores := Objeto.apagar sala.jogadores socket }

/-- The fase of the room under `codigo` after each turn of a run; the list
stops where a turn cannot run. -/
def fases (codigo : String) : Sistema → List Acao → List (Option Fase)
  | _, [] => []
  | st, a :: resto =>
    match passo st a with
    | none => []
    | some (st', _) => (st'.estado.buscar codigo).map Sala.fase :: fases codigo st' resto

/-- The system after a run from process start (process start itself when the
run cannot complete). -/
def Sistema.apos (acoes : List Acao) : Sistema :=
  match executar Sistema.inicial acoes with
  | some r => r.1
  | none => Sistema.inicial

/-- The record of participant `id` in the room under `codigo`. -/
def jogadorDe (s : Estado) (codigo : String) (id : SocketId) : Option Jogador :=
  (s.buscar codigo).bind (fun sala => Objeto.obter sala.jogadores id)

/-- The entry `respostasRecebidas[socket]` of the room object `ref`. -/
def respostaDe (s : Estado) (ref : Nat) (socket : SocketId) : Option Numero :=
  (s.objetos[ref]?).bind (fun sala => Objeto.obter sala.respostasRecebidas socket)

/-- Whether no action of a run is an `iniciarRodada` carrying `codigo`. -/
def semIniciar (codigo : String) (acoes : List Acao) : Bool :=
  acoes.all (fun a =>
    match a with
    | .iniciarRodada _ c => decide (c ≠ codigo)
    | _ => true)

/-- The relation between the two mappings of a room that the data model
states: in every room of the registry, whoever has an entry in
`respostasRecebidas` is a key of `jogadores`. -/
def RespostasDeJogadores (s : Estado) : Prop :=
  ∀ codigo sala, s.buscar codigo = some sala →
    ∀ id, id ∈ Objeto.chaves sala.respostasRecebidas → id ∈ Objeto.chaves sala.jogadores

/-- How one turn of the event loop rewrites the room object `ref`: the cases
are the five places of the source that assign to a field of a room that
already exists, each with the guards under which the assignment is reached. -/
inductive Muda (st : Sistema) : Acao → Nat → Sala → Sala → Prop
  | entrou (socket : SocketId) (codigo : String) (nome : Option String) (ref : Nat)
      (sala : Sala) :
      Objeto.obter st.estado.salas codigo = some ref → sala.fase = .lobby →
      Muda st (.entrarSala socket codigo nome) ref sala
        { sala with
          jogadores := Objeto.definir sala.jogadores socket
            { nome := nomeOuPadrao nome, pontos := 0 } }
  | iniciou (socket : SocketId) (codigo : String) (ref : Nat) (sala : Sala) :
      Objeto.obter st.estado.salas codigo = some ref → sala.hostId = socket →
      Muda st (.iniciarRodada socket codigo) ref sala
        { sala with
          fase := .pergunta, perguntaAtual := some obterPerguntaExemplo,
          respostasRecebidas := [] }
  | respondeu (socket : SocketId) (codigo : String) (i : Numero) (ref : Nat) (sala : Sala) :
      Objeto.obter st.estado.salas codigo = some ref → sala.fase = .pergunta →
      (Objeto.obter sala.jogadores socket).isSome → i.isNaN = false →
      Objeto.obter sala.respostasRecebidas socket = none →
      Muda st (.responder socket codigo i) ref sala
        { sala with respostasRecebidas := Objeto.definir sala.respostasRecebidas socket i }
  | finalizou (k : Nat) (codigo : String) (ref : Nat) (sala : Sala) (p : Pergunta) :
      st.timers[k]? = some (.prazo codigo) →
      Objeto.obter st.estado.salas codigo = some ref → sala.fase = .pergunta →
      sala.perguntaAtual = some p →
      Muda st (.disparar k) ref sala
        { sala with
          fase := .resultado,
          jogadores := pontuar p.correta sala.jogadores sala.respostasRecebidas }
  | voltou (k : Nat) (codigo : String) (ref : Nat) (sala : Sala) :
      st.timers[k]? = some (.retorno ref codigo) →
      Muda st (.disparar k) ref sala { sala with fase := .lobby }

/-- What a room object must satisfy to stand for a JavaScript object of the
program: distinct keys in both mappings, and a question once a round runs. -/
structure Sala.Integra (sala : Sala) : Prop where
  jogadores_nodup : (Objeto.chaves sala.jogadores).Nodup
  respostas_nodup : (Objeto.chaves sala.respostasRecebidas).Nodup
  com_pergunta : sala.fase = .pergunta → sala.perguntaAtual ≠ none

/-- Well-formed program states: every code of `salas` refers to a room object
of the store, two codes never to the same one, and each room object is
well formed. -/
structure Estado.Integro (s : Estado) : Prop where
  refs_validas : ∀ c r, Objeto.obter s.salas c = some r → r < s.objetos.length
  refs_distintas : ∀ c c' r, Objeto.obter s.salas c = some r →
    Objeto.obter s.salas c' = some r → c = c'
  salas_integras : ∀ sala, sala ∈ s.objetos → sala.Integra

/-- What a run without `iniciarRodada` for `codigo` keeps true once the room
object `ref`, stored under `codigo`, holds the answer `v` of `socket`: the
object keeps the answer, no other code leads to it, and a room stored later
under the same code is in the lobby. -/
structure Guardada (codigo : String) (ref : Nat) (socket : SocketId) (v : Numero)
    (s : Estado) : Prop where
  integro : s.Integro
  valida : ref < s.objetos.length
  resposta : respostaDe s ref socket = some v
  so_codigo : ∀ c, Objeto.obter s.salas c = some ref → c = codigo
  outra_no_lobby : ∀ r, Objeto.obter s.salas codigo = some r → r ≠ ref →
    ∃ x, s.objetos[r]? = some x ∧ x.fase = .lobby

/-- Whether an effect is an event broadcast to the transport room `codigo`. -/
def Efeito.transmiteA (codigo : String) : Efeito → Bool
  | .broadcast c _ => decide (c = codigo)
  | _ => false

/-- What holds of the room stored under `codigo` at a point of the
`disconnect` loop: the code still leads to the room object `ref`, no other
code does, the object is `y`, and the events broadcast to the code so far are
`transmitidos`. -/
structure NoLaco (codigo : String) (ref : Nat) (y : Sala) (transmitidos : List Efeito)
    (acc : Estado × List Efeito) : Prop where
  distintas : ∀ c c' r, Objeto.obter acc.1.salas c = some r →
    Objeto.obter acc.1.salas c' = some r → c = c'
  ref_de : Objeto.obter acc.1.salas codigo = some ref
  objeto : acc.1.objetos[ref]? = some y
  efeitos : acc.2.filter (Efeito.transmiteA codigo) = transmitidos

/-- The events the `disconnect` of `socket` broadcasts to the code of a room
it does not host: the `estadoLobby` of line 159 when the socket is a
participant, nothing otherwise. -/
def avisoDeSaida (socket : SocketId) (codigo : String) (sala : Sala) : List Efeito :=
  if (Objeto.obter sala.jogadores socket).isSome then
    [.broadcast codigo (.estadoLobby (nomes (semJogador socket sala)))]
  else []

/-- The system with the bookkeeping needed to tell which `iniciarRodada` a
deadline timer belongs to: the number of turns run so far, for each armed
timer the number of the turn that armed it (in the order of `timers`), and
for each room object the number of the turn of the latest `iniciarRodada`
that started a round in it. -/
structure Marcado where
  sistema : Sistema
  turnos : Nat
  armadoNo : List Nat
  rodadaNo : Objeto Nat Nat
  deriving DecidableEq, Repr

/-- The turn numbers of the armed timers after the action `a`: the fired one
is taken out and the timers the turn arms carry the number of the turn. -/
def Marcado.armadoApos (m : Marcado) (a : Acao) (efeitos : List Efeito) : List Nat :=
  (match a with
    | .disparar k => m.armadoNo.eraseIdx k
    | _ => m.armadoNo) ++ (armados efeitos).map (fun _ => m.turnos)

/-- The turn numbers of the round starts after the action `a`: an
`iniciarRodada` that passes the guard of line 98 is the start of the round of
its room. -/
def Marcado.rodadaApos (m : Marcado) : Acao → Objeto Nat Nat
  | .iniciarRodada socket codigo =>
    match m.sistema.estado.sala? codigo with
    | some (ref, sala) =>
      if sala.hostId = socket then Objeto.definir m.rodadaNo ref m.turnos else m.rodadaNo
    | none => m.rodadaNo
  | _ => m.rodadaNo

/-- One turn of the event loop with the bookkeeping of `Marcado`. -/
def passoMarcado (m : Marcado) (a : Acao) : Option (Marcado × List Efeito) :=
  match passo m.sistema a with
  | none => none
  | some (st', efeitos) =>
    some ({ sistema := st', turnos := m.turnos + 1,
            armadoNo := m.armadoApos a efeitos, rodadaNo := m.rodadaApos a }, efeitos)

/-- The system with its bookkeeping after a run from process start (turns
are numbered from 0; a run that cannot complete stops where it is). -/
def Marcado.apos (acoes : List Acao) : Marcado :=
  acoes.foldl
    (fun m a =>
      match passoMarcado m a with
      | some r => r.1
      | none => m)
    ⟨Sistema.inicial, 0, [], []⟩

/-! ## Sample states -/

/-- A room in the middle of a round: host 1, participants 2, 3 and 4 in
arrival order, answers recorded for 3 (wrong) and 2 (right). -/
def salaExemplo : Sala :=
  { hostId := 1,
    jogadores := [(2, ⟨"Ana", 0⟩), (3, ⟨"Bea", 2⟩), (4, ⟨"Caio", 2⟩)],
    fase := .pergunta,
    perguntaAtual := some obterPerguntaExemplo,
    respostasRecebidas := [(3, .finito 0 0), (2, .finito 1 0)] }

/-- A registry holding `salaExemplo` under the code "WXYZ". -/
def estadoExemplo : Estado := { objetos := [salaExemplo], salas := [("WXYZ", 0)] }

/-! ## Lemmas on property lists -/

namespace Objeto
variable {κ α : Type} [DecidableEq κ]

theorem obter_definir_self (o : Objeto κ α) (k : κ) (v : α) :
    obter (definir o k v) k = some v := by
  induction o with
  | nil => simp [definir, obter]
  | cons p r ih =>
    obtain ⟨k', v'⟩ := p
    by_cases h : k' = k <;> simp [definir, obter, h, ih]

theorem obter_definir_ne (o : Objeto κ α) {k k' : κ} (v : α) (h : k' ≠ k) :
    obter (definir o k v) k' = obter o k' := by
  induction o with
  | nil => simp [definir, obter, h.symm]
  | cons p r ih =>
    obtain ⟨k0, v0⟩ := p
    by_cases h0 : k0 = k
    · subst h0; simp [definir, obter, h.symm]
    · by_cases h1 : k0 = k'
      · subst h1; simp [definir, obter, h0]
      · simp [definir, obter, h0, h1, ih]

theorem obter_eq_none_iff (o : Objeto κ α) (k : κ) :
    obter o k = none ↔ k ∉ chaves o := by
  induction o with
  | nil => simp [obter, chaves]
  | cons p r ih =>
    obtain ⟨k0, v0⟩ := p
    by_cases h0 : k0 = k
    · simp [obter, chaves, h0]
    · simp only [obter, h0, if_false, ih, chaves, List.map_cons, List.mem_cons, not_or]
      constructor
      · intro h; exact ⟨fun e => h0 e.symm, h⟩
      · intro h; exact h.2

theorem obter_isSome_iff (o : Objeto κ α) (k : κ) :
    (obter o k).isSome ↔ k ∈ chaves o := by
  rw [← not_iff_not, ← obter_eq_none_iff]
  cases obter o k <;> simp

theorem chaves_definir_of_some (o : Objeto κ α) (k : κ) (v : α) (h : (obter o k).isSome) :
    chaves (definir o k v) = chaves o := by
  induction o with
  | nil => simp [obter] at h
  | cons p r ih =>
    obtain ⟨k0, v0⟩ := p
    by_cases h0 : k0 = k
    · simp [definir, chaves, h0]
    · simp only [obter, h0, if_false] at h
      simp only [definir, h0, if_false, chaves, List.map_cons] at ih ⊢
      rw [ih h]

theorem chaves_definir_of_none (o : Objeto κ α) (k : κ) (v : α) (h : obter o k = none) :
    chaves (definir o k v) = chaves o ++ [k] := by
  induction o with
  | nil => simp [definir, chaves]
  | cons p r ih =>
    obtain ⟨k0, v0⟩ := p
    by_cases h0 : k0 = k
    · simp [obter, h0] at h
    · simp only [obter, h0, if_false] at h
      simp only [definir, h0, if_false, chaves, List.map_cons, List.cons_append] at ih ⊢
      rw [ih h]

theorem obter_apagar_self (o : Objeto κ α) (k : κ) : obter (apagar o k) k = none := by
  rw [obter_eq_none_iff]
  simp [apagar, chaves, List.mem_filter]

theorem obter_apagar_ne (o : Objeto κ α) {k k' : κ} (h : k' ≠ k) :
    obter (apagar o k) k' = obter o k' := by
  induction o with
  | nil => simp [apagar, obter]
  | cons p r ih =>
    obtain ⟨k0, v0⟩ := p
    by_cases h0 : k0 = k
    · subst h0
      have : k0 ≠ k' := fun e => h e.symm
      simpa [apagar, obter, this] using ih
    · by_cases h1 : k0 = k'
      · subst h1; simp [apagar, obter, h0, List.filter_cons]
      · simpa [apagar, obter, h0, h1, List.filter_cons] using ih

theorem apagar_of_none (o : Objeto κ α) (k : κ) (h : obter o k = none) : apagar o k = o := by
  rw [obter_eq_none_iff] at h
  unfold apagar
  rw [List.filter_eq_self]
  intro p hp
  simp only [decide_eq_true_eq]
  intro e
  exact h (by simpa [chaves] using ⟨p.2, by rw [← e]; exact hp⟩)

theorem chaves_apagar (o : Objeto κ α) (k : κ) :
    chaves (apagar o k) = (chaves o).filter (fun x => decide (x ≠ k)) := by
  simp [chaves, apagar, List.filter_map, Function.comp_def]

end Objeto

/-! ## Lemmas on the store and the registry -/

namespace Estado

theorem sala?_eq_some {s : Estado} {codigo : String} {ref : Nat} {sala : Sala} :
    s.sala? codigo = some (ref, sala) ↔
      Objeto.obter s.salas codigo = some ref ∧ s.objetos[ref]? = some sala := by
  unfold sala?
  constructor
  · intro h
    split at h
    · cases h
    · rename_i r hr
      split at h
      · cases h
      · rename_i x hx
        simp only [Option.some.injEq, Prod.mk.injEq] at h
        obtain ⟨rfl, rfl⟩ := h
        exact ⟨hr, hx⟩
  · rintro ⟨h1, h2⟩
    rw [h1]
    simp only [h2]

theorem buscar_eq_some {s : Estado} {codigo : String} {sala : Sala} :
    s.buscar codigo = some sala ↔ ∃ ref, s.sala? codigo = some (ref, sala) := by
  unfold buscar
  cases h : s.sala? codigo with
  | none => simp
  | some p => obtain ⟨r, x⟩ := p; simp

theorem buscar_eq_none {s : Estado} {codigo : String} :
    s.buscar codigo = none ↔ s.sala? codigo = none := by
  unfold buscar
  cases h : s.sala? codigo <;> simp

@[simp]
theorem gravar_salas (s : Estado) (ref : Nat) (x : Sala) :
    (s.gravar ref x).salas = s.salas := rfl

@[simp]
theorem gravar_length (s : Estado) (ref : Nat) (x : Sala) :
    (s.gravar ref x).objetos.length = s.objetos.length := by
  simp [gravar]

theorem gravar_get_self {s : Estado} {ref : Nat} {sala : Sala} (x : Sala)
    (h : s.objetos[ref]? = some sala) : (s.gravar ref x).objetos[ref]? = some x := by
  have hlt : ref < s.objetos.length := by
    rcases Nat.lt_or_ge ref s.objetos.length with h1 | h1
    · exact h1
    · rw [List.getElem?_eq_none h1] at h; cases h
  simp [gravar, List.getElem?_set_self hlt]

theorem gravar_get_ne (s : Estado) {ref r : Nat} (x : Sala) (h : ref ≠ r) :
    (s.gravar ref x).objetos[r]? = s.objetos[r]? := by
  simp [gravar, List.getElem?_set_ne h]

theorem sala?_gravar_self {s : Estado} {codigo : String} {ref : Nat} {sala : Sala} (x : Sala)
    (h : s.sala? codigo = some (ref, sala)) : (s.gravar ref x).sala? codigo = some (ref, x) := by
  rw [sala?_eq_some] at h ⊢
  exact ⟨h.1, gravar_get_self x h.2⟩

theorem buscar_gravar_self {s : Estado} {codigo : String} {ref : Nat} {sala : Sala} (x : Sala)
    (h : s.sala? codigo = some (ref, sala)) : (s.gravar ref x).buscar codigo = some x :=
  buscar_eq_some.2 ⟨ref, sala?_gravar_self x h⟩

end Estado

/-! ## Scoring -/

theorem acertou_cons_self (correta : Nat) (id : SocketId) (r : Numero)
    (resto : Objeto SocketId Numero) :
    acertou correta ((id, r) :: resto) id = Numero.igual r (Numero.deNat correta) := by
  simp [acertou, Objeto.obter]

theorem acertou_cons_ne (correta : Nat) {id0 id : SocketId} (r : Numero)
    (resto : Objeto SocketId Numero) (h : id0 ≠ id) :
    acertou correta ((id0, r) :: resto) id = acertou correta resto id := by
  simp [acertou, Objeto.obter, h]

theorem pontuar_obter (correta : Nat) (respostas : Objeto SocketId Numero) :
    ∀ (jogadores : Objeto SocketId Jogador), (Objeto.chaves respostas).Nodup →
      ∀ (id : SocketId) (j : Jogador), Objeto.obter jogadores id = some j →
        Objeto.obter (pontuar correta jogadores respostas) id =
          some { nome := j.nome,
                 pontos := j.pontos + (if acertou correta respostas id then 1 else 0) } := by
  induction respostas with
  | nil => intro jogadores _ id j h; simpa [pontuar, acertou, Objeto.obter] using h
  | cons e resto ih =>
    obtain ⟨id0, r0⟩ := e
    intro jogadores hnd id j hj
    have hnd' : (Objeto.chaves resto).Nodup := by
      simp only [Objeto.chaves, List.map_cons, List.nodup_cons] at hnd; exact hnd.2
    have hfresh : Objeto.obter resto id0 = none := by
      rw [Objeto.obter_eq_none_iff]
      simp only [Objeto.chaves, List.map_cons, List.nodup_cons] at hnd; exact hnd.1
    by_cases hid : id0 = id
    · subst hid
      have hresto : acertou correta resto id0 = false := by unfold acertou; rw [hfresh]
      cases hr : Numero.igual r0 (Numero.deNat correta) with
      | true =>
        have h1 := ih (Objeto.definir jogadores id0 { j with pontos := j.pontos + 1 }) hnd' id0
          { j with pontos := j.pontos + 1 } (Objeto.obter_definir_self _ _ _)
        simp only [pontuar, hr, hj]
        rw [h1, acertou_cons_self, hr, hresto]
        simp
      | false =>
        have h1 := ih jogadores hnd' id0 j hj
        simp only [pontuar, hr]
        rw [h1, acertou_cons_self, hr, hresto]
    · rw [acertou_cons_ne correta r0 resto hid]
      cases hr : Numero.igual r0 (Numero.deNat correta) with
      | true =>
        cases hj0 : Objeto.obter jogadores id0 with
        | none => simp only [pontuar, hr, hj0]; exact ih jogadores hnd' id j hj
        | some j0 =>
          simp only [pontuar, hr, hj0]
          apply ih _ hnd' id j
          rw [Objeto.obter_definir_ne _ _ (fun e => hid e.symm)]; exact hj
      | false => simp only [pontuar, hr]; exact ih jogadores hnd' id j hj

theorem pontuar_chaves (correta : Nat) (respostas : Objeto SocketId Numero) :
    ∀ (jogadores : Objeto SocketId Jogador),
      Objeto.chaves (pontuar correta jogadores respostas) = Objeto.chaves jogadores := by
  induction respostas with
  | nil => intro jogadores; rfl
  | cons e resto ih =>
    obtain ⟨id0, r0⟩ := e
    intro jogadores
    cases hr : Numero.igual r0 (Numero.deNat correta) with
    | true =>
      cases hj0 : Objeto.obter jogadores id0 with
      | none => simp only [pontuar, hr, hj0]; exact ih jogadores
      | some j0 =>
        simp only [pontuar, hr, hj0]
        rw [ih, Objeto.chaves_definir_of_some _ _ _ (by simp [hj0])]
    | false => simp only [pontuar, hr]; exact ih jogadores

/-! ## The scoreboard -/

theorem ordenarPlacar_perm (l : List Jogador) : (ordenarPlacar l).Perm l :=
  List.perm_insertionSort _ l

theorem ordenarPlacar_sorted (l : List Jogador) :
    (ordenarPlacar l).Sorted (fun a b => b.pontos ≤ a.pontos) := by
  haveI : IsTotal Jogador (fun a b => compararPontos a b ≤ 0) :=
    ⟨fun a b => by simp only [compararPontos]; omega⟩
  haveI : IsTrans Jogador (fun a b => compararPontos a b ≤ 0) :=
    ⟨fun a b c => by simp only [compararPontos]; omega⟩
  have h := List.sorted_insertionSort (fun a b : Jogador => compararPontos a b ≤ 0) l
  refine List.Pairwise.imp ?_ h
  intro a b hab
  simp only [compararPontos] at hab
  omega

theorem ordenarPlacar_estavel (l : List Jogador) (n : Nat) :
    (ordenarPlacar l).filter (fun j => decide (j.pontos = n)) =
      l.filter (fun j => decide (j.pontos = n)) := by
  have hpw : (l.filter (fun j => decide (j.pontos = n))).Pairwise
      (fun a b => compararPontos a b ≤ 0) := by
    rw [List.pairwise_iff_forall_sublist]
    intro a b hab
    have ha : a ∈ l.filter (fun j => decide (j.pontos = n)) := hab.subset (by simp)
    have hb : b ∈ l.filter (fun j => decide (j.pontos = n)) := hab.subset (by simp)
    simp only [List.mem_filter, decide_eq_true_eq] at ha hb
    simp only [compararPontos]
    omega
  have hsub : List.Sublist (l.filter (fun j => decide (j.pontos = n))) (ordenarPlacar l) :=
    List.sublist_insertionSort hpw (List.filter_sublist l)
  have hsub' := hsub.filter (fun j => decide (j.pontos = n))
  rw [List.filter_filter] at hsub'
  simp only [Bool.and_self] at hsub'
  have hlen := ((ordenarPlacar_perm l).filter (fun j => decide (j.pontos = n))).length_eq
  exact (hsub'.eq_of_length hlen.symm).symm

theorem placar_eq (sala : Sala) : placar sala = ordenarPlacar (Objeto.valores sala.jogadores) := by
  unfold placar
  congr 1
  exact List.map_id _

/-! ## Round end: scores and scoreboard (C2, C3) -/

theorem finalizarRodada_eq {s : Estado} {codigo : String} {ref : Nat} {sala : Sala}
    {p : Pergunta} (hsala : s.sala? codigo = some (ref, sala)) (hfase : sala.fase = .pergunta)
    (hperg : sala.perguntaAtual = some p) :
    finalizarRodada s codigo =
      some (s.gravar ref
          { sala with
            fase := .resultado,
            jogadores := pontuar p.correta sala.jogadores sala.respostasRecebidas },
        [.broadcast codigo (.resultadoRodada p.correta
            (ordenarPlacar (Objeto.valores
              (pontuar p.correta sala.jogadores sala.respostasRecebidas)))),
         .setTimeout (.retorno ref codigo) 5000]) := by
  unfold finalizarRodada
  rw [hsala]
  simp only [hfase, ne_eq, not_true_eq_false, if_false, hperg, placar_eq]

/-- C2: for a room in fase "pergunta", `finalizarRodada` returns and keeps the
participants and their names; a participant whose entry in
`respostasRecebidas` equals `perguntaAtual.correta` has `pontos` exactly 1
greater than before, a participant with another answer or with no answer has
`pontos` unchanged. The keys of `respostasRecebidas` are distinct, as the keys
of an object are. -/
theorem finalizarRodada_pontua (s : Estado) (codigo : String) (sala : Sala) (p : Pergunta)
    (hsala : s.buscar codigo = some sala) (hfase : sala.fase = .pergunta)
    (hperg : sala.perguntaAtual = some p)
    (hchaves : (Objeto.chaves sala.respostasRecebidas).Nodup) :
    ∃ s' efeitos sala', finalizarRodada s codigo = some (s', efeitos) ∧
      s'.buscar codigo = some sala' ∧
      Objeto.chaves sala'.jogadores = Objeto.chaves sala.jogadores ∧
      ∀ id j, Objeto.obter sala.jogadores id = some j →
        ∃ j', Objeto.obter sala'.jogadores id = some j' ∧ j'.nome = j.nome ∧
          (∀ resp, Objeto.obter sala.respostasRecebidas id = some resp →
            Numero.igual resp (Numero.deNat p.correta) = true → j'.pontos = j.pontos + 1) ∧
          (∀ resp, Objeto.obter sala.respostasRecebidas id = some resp →
            Numero.igual resp (Numero.deNat p.correta) = false → j'.pontos = j.pontos) ∧
          (Objeto.obter sala.respostasRecebidas id = none → j'.pontos = j.pontos) := by
  obtain ⟨ref, href⟩ := Estado.buscar_eq_some.1 hsala
  refine ⟨_, _, _, finalizarRodada_eq href hfase hperg, Estado.buscar_gravar_self _ href,
    pontuar_chaves _ _ _, ?_⟩
  intro id j hj
  refine ⟨_, pontuar_obter p.correta sala.respostasRecebidas sala.jogadores hchaves id j hj,
    rfl, ?_, ?_, ?_⟩
  · intro resp hresp higual
    simp [acertou, hresp, higual]
  · intro resp hresp higual
    simp [acertou, hresp, higual]
  · intro hnone
    simp [acertou, hnone]

theorem finalizarRodada_pontua_witness :
    ∃ s' efeitos sala', finalizarRodada estadoExemplo "WXYZ" = some (s', efeitos) ∧
      s'.buscar "WXYZ" = some sala' ∧
      Objeto.chaves sala'.jogadores = Objeto.chaves salaExemplo.jogadores ∧
      ∀ id j, Objeto.obter salaExemplo.jogadores id = some j →
        ∃ j', Objeto.obter sala'.jogadores id = some j' ∧ j'.nome = j.nome ∧
          (∀ resp, Objeto.obter salaExemplo.respostasRecebidas id = some resp →
            Numero.igual resp (Numero.deNat obterPerguntaExemplo.correta) = true →
              j'.pontos = j.pontos + 1) ∧
          (∀ resp, Objeto.obter salaExemplo.respostasRecebidas id = some resp →
            Numero.igual resp (Numero.deNat obterPerguntaExemplo.correta) = false →
              j'.pontos = j.pontos) ∧
          (Objeto.obter salaExemplo.respostasRecebidas id = none → j'.pontos = j.pontos) :=
  finalizarRodada_pontua estadoExemplo "WXYZ" salaExemplo obterPerguntaExemplo
    (by decide) (by decide) (by decide) (by decide)

/-- C3: for a room in fase "pergunta", `finalizarRodada` emits to the room one
`resultadoRodada` whose `placar` is a permutation of the (nome, pontos) records
of the participants after scoring, is sorted by non-increasing `pontos`, and
keeps participants of equal `pontos` in the order of `jogadores`: for every
score, the entries with that score are the same list in both. -/
theorem finalizarRodada_placar (s : Estado) (codigo : String) (sala : Sala) (p : Pergunta)
    (hsala : s.buscar codigo = some sala) (hfase : sala.fase = .pergunta)
    (hperg : sala.perguntaAtual = some p) :
    ∃ s' sala' ref pl,
      finalizarRodada s codigo =
        some (s', [.broadcast codigo (.resultadoRodada p.correta pl),
                   .setTimeout (.retorno ref codigo) 5000]) ∧
      s'.buscar codigo = some sala' ∧
      pl.Perm (Objeto.valores sala'.jogadores) ∧
      pl.Sorted (fun a b => b.pontos ≤ a.pontos) ∧
      ∀ n, pl.filter (fun j => decide (j.pontos = n)) =
        (Objeto.valores sala'.jogadores).filter (fun j => decide (j.pontos = n)) := by
  obtain ⟨ref, href⟩ := Estado.buscar_eq_some.1 hsala
  exact ⟨_, _, ref, _, finalizarRodada_eq href hfase hperg, Estado.buscar_gravar_self _ href,
    ordenarPlacar_perm _, ordenarPlacar_sorted _, ordenarPlacar_estavel _⟩

theorem finalizarRodada_placar_witness :
    ∃ s' sala' ref pl,
      finalizarRodada estadoExemplo "WXYZ" =
        some (s', [.broadcast "WXYZ" (.resultadoRodada obterPerguntaExemplo.correta pl),
                   .setTimeout (.retorno ref "WXYZ") 5000]) ∧
      s'.buscar "WXYZ" = some sala' ∧
      pl.Perm (Objeto.valores sala'.jogadores) ∧
      pl.Sorted (fun a b => b.pontos ≤ a.pontos) ∧
      ∀ n, pl.filter (fun j => decide (j.pontos = n)) =
        (Objeto.valores sala'.jogadores).filter (fun j => decide (j.pontos = n)) :=
  finalizarRodada_placar estadoExemplo "WXYZ" salaExemplo obterPerguntaExemplo
    (by decide) (by decide) (by decide)

/-! ## Rejected requests (C5, C10) -/

/-- C5: for an existing room whose fase is not "lobby", `entrarSala` leaves the
whole state unchanged and its only effect is one `erro` event (game already
started) sent to the requesting connection: no join, no `entrouNaSala`, no
`estadoLobby` broadcast. -/
theorem entrarSala_fora_do_lobby (s : Estado) (socket : SocketId) (codigo : String)
    (nome : Option String) (sala : Sala) (hsala : s.buscar codigo = some sala)
    (hfase : sala.fase ≠ .lobby) :
    entrarSala s socket codigo nome =
      (s, [.emit socket (.erro "Jogo já iniciou. Aguarde a próxima.")]) := by
  obtain ⟨ref, href⟩ := Estado.buscar_eq_some.1 hsala
  unfold entrarSala
  rw [href]
  simp only [ne_eq, hfase, not_false_eq_true, if_true]

theorem entrarSala_fora_do_lobby_witness :
    entrarSala estadoExemplo 5 "WXYZ" (some "Duda") =
      (estadoExemplo, [.emit 5 (.erro "Jogo já iniciou. Aguarde a próxima.")]) :=
  entrarSala_fora_do_lobby estadoExemplo 5 "WXYZ" (some "Duda") salaExemplo
    (by decide) (by decide)

/-- C10: when the code has no room, or the requester is not the `hostId` of the
room, `iniciarRodada` returns the state unchanged with no effect at all (no
event, no timer), and the turn of the event loop leaves the system, armed
timers included, as it was. -/
theorem iniciarRodada_ignorado (st : Sistema) (socket : SocketId) (codigo : String)
    (h : st.estado.buscar codigo = none ∨
      ∃ sala, st.estado.buscar codigo = some sala ∧ sala.hostId ≠ socket) :
    iniciarRodada st.estado socket codigo = (st.estado, []) ∧
      passo st (.iniciarRodada socket codigo) = some (st, []) := by
  have h1 : iniciarRodada st.estado socket codigo = (st.estado, []) := by
    unfold iniciarRodada
    rcases h with h | ⟨sala, hsala, hhost⟩
    · rw [Estado.buscar_eq_none.1 h]
    · obtain ⟨ref, href⟩ := Estado.buscar_eq_some.1 hsala
      rw [href]
      simp only [ne_eq, hhost, not_false_eq_true, if_true]
  refine ⟨h1, ?_⟩
  simp [passo, executarAcao, timersRestantes, h1, armados]

theorem iniciarRodada_ignorado_witness :
    (iniciarRodada estadoExemplo 2 "WXYZ" = (estadoExemplo, []) ∧
      passo ⟨estadoExemplo, [.prazo "WXYZ"]⟩ (.iniciarRodada 2 "WXYZ") =
        some (⟨estadoExemplo, [.prazo "WXYZ"]⟩, [])) :=
  iniciarRodada_ignorado ⟨estadoExemplo, [.prazo "WXYZ"]⟩ 2 "WXYZ"
    (Or.inr ⟨salaExemplo, by decide, by decide⟩)

/-! ## Room codes (C7) -/

theorem letra_mem (k : Sorteado) : letra k ∈ letras.toList := by
  unfold letra
  exact List.get_mem _ _ _

theorem montarCodigo_length (a b c d : Sorteado) : (montarCodigo a b c d).length = 4 := by
  simp [montarCodigo]

theorem montarCodigo_toList (a b c d : Sorteado) :
    (montarCodigo a b c d).toList = [letra a, letra b, letra c, letra d] := by
  simp [montarCodigo, String.toList]

theorem gerarCodigoSala_some (salas : Objeto String Nat) :
    ∀ (sorteados : List Sorteado) (codigo : String),
      gerarCodigoSala salas sorteados = some codigo →
        (∃ a b c d, codigo = montarCodigo a b c d) ∧ Objeto.obter salas codigo = none := by
  intro sorteados
  induction sorteados using gerarCodigoSala.induct salas with
  | case1 a b c d resto hsome ih =>
    intro codigo h
    rw [gerarCodigoSala, if_pos hsome] at h
    exact ih codigo h
  | case2 a b c d resto hnone =>
    intro codigo h
    rw [gerarCodigoSala, if_neg hnone] at h
    cases h
    refine ⟨⟨a, b, c, d, rfl⟩, ?_⟩
    cases hg : Objeto.obter salas (montarCodigo a b c d) with
    | none => rfl
    | some r => exact absurd (by simp [hg]) hnone
  | case3 l hl =>
    intro codigo h
    unfold gerarCodigoSala at h
    split at h
    · exact absurd rfl (hl _ _ _ _ _)
    · cases h

/-- Function `gerarCodigoSala` returns at the first attempt whose code is free. -/
theorem gerarCodigoSala_primeira (salas : Objeto String Nat) (a b c d : Sorteado)
    (resto : List Sorteado) (h : Objeto.obter salas (montarCodigo a b c d) = none) :
    gerarCodigoSala salas (a :: b :: c :: d :: resto) = some (montarCodigo a b c d) := by
  rw [gerarCodigoSala, if_neg (by simp [h])]

theorem buscar_criarSala {s : Estado} {codigo : String} (nova : Sala)
    (hlivre : Objeto.obter s.salas codigo = none) {c : String} {sala : Sala}
    (h : s.buscar c = some sala) :
    Estado.buscar
      { objetos := s.objetos ++ [nova],
        salas := Objeto.definir s.salas codigo s.objetos.length } c = some sala := by
  obtain ⟨ref, href⟩ := Estado.buscar_eq_some.1 h
  rw [Estado.sala?_eq_some] at href
  refine Estado.buscar_eq_some.2 ⟨ref, Estado.sala?_eq_some.2 ⟨?_, ?_⟩⟩
  · have hne : c ≠ codigo := by
      rintro rfl
      rw [hlivre] at href
      cases href.1
    simpa [Objeto.obter_definir_ne _ _ hne] using href.1
  · have hlt : ref < s.objetos.length := by
      rcases Nat.lt_or_ge ref s.objetos.length with h1 | h1
      · exact h1
      · rw [List.getElem?_eq_none h1] at href; cases href.2
    simpa [List.getElem?_append_left hlt] using href.2

/-- C7: whenever `gerarCodigoSala` returns on a registry and a supply of random
draws, the code has exactly 4 characters, each of the alphabet
"ABCDEFGHJKMNPQRSTUVWXYZ", which has neither I nor O, and is the code of no
room of the registry; `criarSala` then returns, stores the new room under that
code and leaves every room that was in the registry in place, unchanged. -/
theorem gerarCodigoSala_codigo (s : Estado) (socket : SocketId) (sorteados : List Sorteado)
    (codigo : String) (h : gerarCodigoSala s.salas sorteados = some codigo) :
    codigo.length = 4 ∧ (∀ ch ∈ codigo.toList, ch ∈ letras.toList) ∧
      letras = "ABCDEFGHJKMNPQRSTUVWXYZ" ∧ 'I' ∉ letras.toList ∧ 'O' ∉ letras.toList ∧
      codigo ∉ Objeto.chaves s.salas ∧ s.buscar codigo = none ∧
      ∃ s' efeitos, criarSala s socket sorteados = some (s', efeitos) ∧
        s'.buscar codigo =
          some { hostId := socket, jogadores := [], fase := .lobby, perguntaAtual := none,
                 respostasRecebidas := [] } ∧
        efeitos = [.join socket codigo, .emit socket (.salaCriada codigo)] ∧
        ∀ c sala, s.buscar c = some sala → s'.buscar c = some sala := by
  obtain ⟨⟨a, b, c, d, rfl⟩, hlivre⟩ := gerarCodigoSala_some s.salas sorteados codigo h
  refine ⟨montarCodigo_length a b c d, ?_, rfl, by decide, by decide,
    (Objeto.obter_eq_none_iff _ _).1 hlivre, ?_, ?_⟩
  · intro ch hch
    rw [montarCodigo_toList] at hch
    simp only [List.mem_cons, List.mem_singleton, List.not_mem_nil, or_false] at hch
    rcases hch with rfl | rfl | rfl | rfl <;> exact letra_mem _
  · rw [Estado.buscar_eq_none]
    unfold Estado.sala?
    rw [hlivre]
  · refine ⟨_, _, by unfold criarSala; rw [h], ?_, rfl, ?_⟩
    · refine Estado.buscar_eq_some.2 ⟨s.objetos.length, Estado.sala?_eq_some.2 ⟨?_, ?_⟩⟩
      · exact Objeto.obter_definir_self _ _ _
      · simp [salaNova]
    · intro c' sala hc'
      exact buscar_criarSala _ hlivre hc'

theorem gerarCodigoSala_codigo_witness :
    gerarCodigoSala estadoExemplo.salas [19, 20, 21, 22, 0, 1, 2, 3] = some "ABCD" ∧
      "ABCD".length = 4 ∧ "ABCD" ∉ Objeto.chaves estadoExemplo.salas ∧
      ∃ s' efeitos, criarSala estadoExemplo 7 [19, 20, 21, 22, 0, 1, 2, 3] = some (s', efeitos) ∧
        ∀ c sala, estadoExemplo.buscar c = some sala → s'.buscar c = some sala :=
  have h := gerarCodigoSala_codigo estadoExemplo 7 [19, 20, 21, 22, 0, 1, 2, 3] "ABCD"
    (by decide)
  ⟨by decide, h.1, h.2.2.2.2.2.1,
    h.2.2.2.2.2.2.2.elim fun s' hs => hs.elim fun efeitos he => ⟨s', efeitos, he.1, he.2.2.2⟩⟩

/-! ## The `disconnect` loop -/

theorem semJogador_semJogador (socket : SocketId) (sala : Sala) :
    semJogador socket (semJogador socket sala) = semJogador socket sala := by
  simp only [semJogador]
  rw [Objeto.apagar_of_none _ _ (Objeto.obter_apagar_self _ _)]

theorem semJogador_of_none {socket : SocketId} {sala : Sala}
    (h : Objeto.obter sala.jogadores socket = none) : semJogador socket sala = sala := by
  simp only [semJogador]
  rw [Objeto.apagar_of_none _ _ h]

theorem obter_apagar_some {κ α : Type} [DecidableEq κ] {o : Objeto κ α} {k c : κ} {r : α}
    (h : Objeto.obter (Objeto.apagar o k) c = some r) : Objeto.obter o c = some r := by
  by_cases hc : c = k
  · subst hc; rw [Objeto.obter_apagar_self] at h; cases h
  · rwa [Objeto.obter_apagar_ne _ hc] at h

/-- Anything true at the start of the `disconnect` loop and kept by each
iteration is true at its end. -/
theorem disconnect_inducao (socket : SocketId) (P : Estado → Prop)
    (hpasso : ∀ (acc : Estado × List Efeito) (codigo : String),
      P acc.1 → P (disconnectSala socket acc codigo).1)
    (s : Estado) (h0 : P s) : P (disconnect s socket).1 := by
  unfold disconnect
  generalize Objeto.chaves s.salas = ks
  have : ∀ (acc : Estado × List Efeito), P acc.1 →
      P (ks.foldl (disconnectSala socket) acc).1 := by
    induction ks with
    | nil => intro acc h; exact h
    | cons k resto ih => intro acc h; exact ih _ (hpasso acc k h)
  exact this (s, []) h0

/-- One iteration of the `disconnect` loop either changes nothing, or deletes
its code from `salas`, or deletes the socket from the `jogadores` of one room
object. -/
theorem disconnectSala_cases (socket : SocketId) (acc : Estado × List Efeito)
    (codigo : String) :
    (disconnectSala socket acc codigo).1 = acc.1 ∨
      (∃ ref sala, acc.1.sala? codigo = some (ref, sala) ∧ sala.hostId = socket ∧
        (disconnectSala socket acc codigo).1 =
          { acc.1 with salas := Objeto.apagar acc.1.salas codigo }) ∨
      (∃ ref sala, acc.1.sala? codigo = some (ref, sala) ∧ sala.hostId ≠ socket ∧
        (disconnectSala socket acc codigo).1 = acc.1.gravar ref (semJogador socket sala)) := by
  unfold disconnectSala
  cases h : acc.1.sala? codigo with
  | none => exact Or.inl rfl
  | some p =>
    obtain ⟨ref, sala⟩ := p
    by_cases hh : sala.hostId = socket
    · exact Or.inr (Or.inl ⟨ref, sala, rfl, hh, by simp [hh]⟩)
    · by_cases hj : (Objeto.obter sala.jogadores socket).isSome
      · exact Or.inr (Or.inr ⟨ref, sala, rfl, hh, by simp [hh, hj, semJogador]⟩)
      · exact Or.inl (by simp [hh, hj])

/-- The `disconnect` handler keeps the store as long as it was, only removes
keys from `salas`, and leaves each room object as it was or without the
socket among its `jogadores`. -/
theorem disconnect_estado (s : Estado) (socket : SocketId) :
    (disconnect s socket).1.objetos.length = s.objetos.length ∧
      (∀ c r, Objeto.obter (disconnect s socket).1.salas c = some r →
        Objeto.obter s.salas c = some r) ∧
      ∀ (ref : Nat) (sala : Sala), s.objetos[ref]? = some sala →
        (disconnect s socket).1.objetos[ref]? = some sala ∨
          (disconnect s socket).1.objetos[ref]? = some (semJogador socket sala) := by
  refine disconnect_inducao socket
    (fun s' => s'.objetos.length = s.objetos.length ∧
      (∀ c r, Objeto.obter s'.salas c = some r → Objeto.obter s.salas c = some r) ∧
      ∀ (ref : Nat) (sala : Sala), s.objetos[ref]? = some sala →
        s'.objetos[ref]? = some sala ∨ s'.objetos[ref]? = some (semJogador socket sala))
    ?_ s ⟨rfl, fun _ _ h => h, fun _ _ h => Or.inl h⟩
  intro acc codigo ⟨hlen, hsalas, hobj⟩
  rcases disconnectSala_cases socket acc codigo with h | ⟨ref, sala, _, _, h⟩ |
    ⟨ref, sala, hsala, _, h⟩
  · rw [h]; exact ⟨hlen, hsalas, hobj⟩
  · rw [h]
    exact ⟨hlen, fun c r hc => hsalas c r (obter_apagar_some hc), hobj⟩
  · rw [h]
    refine ⟨by simpa using hlen, fun c r hc => hsalas c r (by simpa using hc), ?_⟩
    intro r x hx
    have hcur := (Estado.sala?_eq_some.1 hsala).2
    by_cases hr : ref = r
    · subst hr
      rw [Estado.gravar_get_self _ hcur]
      rcases hobj ref x hx with h1 | h1
      · rw [h1] at hcur; cases hcur; exact Or.inr rfl
      · rw [h1] at hcur; cases hcur
        rw [semJogador_semJogador]; exact Or.inr rfl
    · rw [Estado.gravar_get_ne _ _ hr]
      exact hobj r x hx

/-- After the `disconnect` handler no code of `salas` leads to a room whose
`hostId` is the socket. -/
theorem disconnect_sem_host (s : Estado) (socket : SocketId) (codigo : String) (ref : Nat)
    (sala : Sala) (h : (disconnect s socket).1.sala? codigo = some (ref, sala)) :
    sala.hostId ≠ socket := by
  -- the property of one code, once true, stays true through the loop
  have hfica : ∀ (acc : Estado × List Efeito) (k : String),
      (∀ r x, acc.1.sala? codigo = some (r, x) → x.hostId ≠ socket) →
      ∀ r x, (disconnectSala socket acc k).1.sala? codigo = some (r, x) → x.hostId ≠ socket := by
    intro acc k hacc r x hx
    rcases disconnectSala_cases socket acc k with h | ⟨ref', sala', _, _, h⟩ |
      ⟨ref', sala', hsala', _, h⟩
    · rw [h] at hx; exact hacc r x hx
    · rw [h, Estado.sala?_eq_some] at hx
      exact hacc r x (Estado.sala?_eq_some.2 ⟨obter_apagar_some hx.1, hx.2⟩)
    · rw [h, Estado.sala?_eq_some] at hx
      have hcur := (Estado.sala?_eq_some.1 hsala').2
      by_cases hr : ref' = r
      · subst hr
        rw [Estado.gravar_get_self _ hcur] at hx
        have := hacc ref' sala' (Estado.sala?_eq_some.2 ⟨by simpa using hx.1, hcur⟩)
        obtain ⟨_, hx2⟩ := hx
        cases hx2
        exact this
      · rw [Estado.gravar_get_ne _ _ hr] at hx
        exact hacc r x (Estado.sala?_eq_some.2 ⟨by simpa using hx.1, hx.2⟩)
  -- the iteration for a code establishes the property for that code
  have hfaz : ∀ (acc : Estado × List Efeito),
      ∀ r x, (disconnectSala socket acc codigo).1.sala? codigo = some (r, x) →
        x.hostId ≠ socket := by
    intro acc r x hx
    rcases disconnectSala_cases socket acc codigo with h | ⟨ref', sala', _, _, h⟩ |
      ⟨ref', sala', hsala', hh, h⟩
    · rw [h] at hx
      intro hhost
      have : (disconnectSala socket acc codigo).1 =
          { acc.1 with salas := Objeto.apagar acc.1.salas codigo } := by
        unfold disconnectSala
        rw [hx]
        simp [hhost]
      rw [h] at this
      have hx' := (Estado.sala?_eq_some.1 hx).1
      rw [this] at hx'
      simp only at hx'
      rw [Objeto.obter_apagar_self] at hx'
      cases hx'
    · rw [h, Estado.sala?_eq_some] at hx
      simp only at hx
      rw [Objeto.obter_apagar_self] at hx
      cases hx.1
    · rw [h, Estado.sala?_eq_some] at hx
      have hs := Estado.sala?_eq_some.1 hsala'
      have hr : ref' = r := by
        have := hx.1
        simp only [Estado.gravar_salas] at this
        rw [hs.1] at this
        exact Option.some.inj this
      subst hr
      rw [Estado.gravar_get_self _ hs.2] at hx
      obtain ⟨_, hx2⟩ := hx
      cases hx2
      exact hh
  have hks : ∀ (ks : List String) (acc : Estado × List Efeito),
      (codigo ∈ ks ∨ ∀ r x, acc.1.sala? codigo = some (r, x) → x.hostId ≠ socket) →
      ∀ r x, (ks.foldl (disconnectSala socket) acc).1.sala? codigo = some (r, x) →
        x.hostId ≠ socket := by
    intro ks
    induction ks with
    | nil =>
      intro acc hor
      rcases hor with hmem | hok
      · cases hmem
      · exact hok
    | cons k resto ih =>
      intro acc hor
      apply ih
      rcases hor with hmem | hok
      · rcases List.mem_cons.1 hmem with rfl | hmem
        · exact Or.inr (hfaz acc)
        · exact Or.inl hmem
      · exact Or.inr (hfica acc k hok)
  refine hks (Objeto.chaves s.salas) (s, []) ?_ ref sala h
  by_cases hmem : codigo ∈ Objeto.chaves s.salas
  · exact Or.inl hmem
  · refine Or.inr (fun r x hx => ?_)
    rw [Estado.sala?_eq_some, (Objeto.obter_eq_none_iff _ _).2 hmem] at hx
    cases hx.1

/-! ## One turn of the event loop, case by case -/

theorem entrarSala_cases (st : Sistema) (socket : SocketId) (codigo : String)
    (nome : Option String) :
    (entrarSala st.estado socket codigo nome).1 = st.estado ∨
      ∃ ref sala sala', st.estado.objetos[ref]? = some sala ∧
        Muda st (.entrarSala socket codigo nome) ref sala sala' ∧
        (entrarSala st.estado socket codigo nome).1 = st.estado.gravar ref sala' := by
  unfold entrarSala
  cases h : st.estado.sala? codigo with
  | none => exact Or.inl rfl
  | some p =>
    obtain ⟨ref, sala⟩ := p
    have hs := Estado.sala?_eq_some.1 h
    by_cases hf : sala.fase = .lobby
    · exact Or.inr ⟨ref, sala, _, hs.2, Muda.entrou socket codigo nome ref sala hs.1 hf,
        by simp [hf]⟩
    · exact Or.inl (by simp [hf])

theorem iniciarRodada_cases (st : Sistema) (socket : SocketId) (codigo : String) :
    (iniciarRodada st.estado socket codigo).1 = st.estado ∨
      ∃ ref sala sala', st.estado.objetos[ref]? = some sala ∧
        Muda st (.iniciarRodada socket codigo) ref sala sala' ∧
        (iniciarRodada st.estado socket codigo).1 = st.estado.gravar ref sala' := by
  unfold iniciarRodada
  cases h : st.estado.sala? codigo with
  | none => exact Or.inl rfl
  | some p =>
    obtain ⟨ref, sala⟩ := p
    have hs := Estado.sala?_eq_some.1 h
    by_cases hh : sala.hostId = socket
    · exact Or.inr ⟨ref, sala, _, hs.2, Muda.iniciou socket codigo ref sala hs.1 hh,
        by simp [hh]⟩
    · exact Or.inl (by simp [hh])

theorem responder_cases (st : Sistema) (socket : SocketId) (codigo : String) (i : Numero) :
    responder st.estado socket codigo i = (st.estado, []) ∨
      ∃ ref sala sala', st.estado.objetos[ref]? = some sala ∧
        Muda st (.responder socket codigo i) ref sala sala' ∧
        responder st.estado socket codigo i =
          (st.estado.gravar ref sala', [.emit socket .respostaRecebida]) := by
  unfold responder
  cases h : st.estado.sala? codigo with
  | none => exact Or.inl rfl
  | some p =>
    obtain ⟨ref, sala⟩ := p
    have hs := Estado.sala?_eq_some.1 h
    by_cases hf : sala.fase = .pergunta
    · cases hj : Objeto.obter sala.jogadores socket with
      | none => exact Or.inl (by simp [hf, hj])
      | some j =>
        cases hn : i.isNaN with
        | true => exact Or.inl (by simp [hf, hj, hn])
        | false =>
          cases hr : Objeto.obter sala.respostasRecebidas socket with
          | some r => exact Or.inl (by simp [hf, hj, hn, hr])
          | none =>
            exact Or.inr ⟨ref, sala, _, hs.2,
              Muda.respondeu socket codigo i ref sala hs.1 hf (by simp [hj]) hn hr,
              by simp [hf, hj, hn, hr]⟩
    · exact Or.inl (by simp [hf])

theorem finalizarRodada_cases (st : Sistema) (k : Nat) (codigo : String)
    (hk : st.timers[k]? = some (.prazo codigo)) (s' : Estado) (efeitos : List Efeito)
    (h : finalizarRodada st.estado codigo = some (s', efeitos)) :
    (s' = st.estado ∧ efeitos = []) ∨
      ∃ ref sala sala', st.estado.objetos[ref]? = some sala ∧
        Muda st (.disparar k) ref sala sala' ∧ s' = st.estado.gravar ref sala' := by
  unfold finalizarRodada at h
  cases hsala : st.estado.sala? codigo with
  | none =>
    rw [hsala] at h
    simp only [Option.some.injEq, Prod.mk.injEq] at h
    exact Or.inl ⟨h.1.symm, h.2.symm⟩
  | some p =>
    obtain ⟨ref, sala⟩ := p
    have hs := Estado.sala?_eq_some.1 hsala
    rw [hsala] at h
    by_cases hf : sala.fase = .pergunta
    · cases hp : sala.perguntaAtual with
      | none => simp [hf, hp] at h
      | some q =>
        simp only [hf, hp, ne_eq, not_true_eq_false, if_false, Option.some.injEq,
          Prod.mk.injEq] at h
        exact Or.inr ⟨ref, sala, _, hs.2, Muda.finalizou k codigo ref sala q hk hs.1 hf hp,
          by rw [hp]; exact h.1.symm⟩
    · simp only [ne_eq, hf, not_false_eq_true, if_true, Option.some.injEq,
        Prod.mk.injEq] at h
      exact Or.inl ⟨h.1.symm, h.2.symm⟩

theorem voltarAoLobby_cases (st : Sistema) (k : Nat) (ref : Nat) (codigo : String)
    (hk : st.timers[k]? = some (.retorno ref codigo)) :
    (voltarAoLobby st.estado ref codigo).1 = st.estado ∨
      ∃ sala sala', st.estado.objetos[ref]? = some sala ∧
        Muda st (.disparar k) ref sala sala' ∧
        (voltarAoLobby st.estado ref codigo).1 = st.estado.gravar ref sala' := by
  unfold voltarAoLobby
  cases h : st.estado.objetos[ref]? with
  | none => exact Or.inl rfl
  | some sala => exact Or.inr ⟨sala, _, rfl, Muda.voltou k codigo ref sala hk, rfl⟩

theorem passo_eq_some {st st' : Sistema} {a : Acao} {efeitos : List Efeito}
    (h : passo st a = some (st', efeitos)) :
    executarAcao st a = some (st'.estado, efeitos) ∧
      st'.timers = timersRestantes st a ++ armados efeitos := by
  unfold passo at h
  cases he : executarAcao st a with
  | none => rw [he] at h; cases h
  | some p =>
    obtain ⟨s', ef⟩ := p
    rw [he] at h
    simp only [Option.some.injEq, Prod.mk.injEq] at h
    obtain ⟨rfl, rfl⟩ := h
    exact ⟨rfl, rfl⟩

/-- Every turn of the event loop leaves the program state as it was, or adds a
new room under a code that was free, or is the `disconnect` loop, or rewrites
one room object as `Muda` says. -/
theorem passo_cases {st st' : Sistema} {a : Acao} {efeitos : List Efeito}
    (h : passo st a = some (st', efeitos)) :
    st'.estado = st.estado ∨
      (∃ socket sorteados codigo, a = .criarSala socket sorteados ∧
        Objeto.obter st.estado.salas codigo = none ∧
        st'.estado =
          { objetos := st.estado.objetos ++ [salaNova socket],
            salas := Objeto.definir st.estado.salas codigo st.estado.objetos.length }) ∨
      (∃ socket, a = .disconnect socket ∧ st'.estado = (disconnect st.estado socket).1) ∨
      ∃ ref sala sala', st.estado.objetos[ref]? = some sala ∧ Muda st a ref sala sala' ∧
        st'.estado = st.estado.gravar ref sala' := by
  have he := (passo_eq_some h).1
  cases a with
  | criarSala socket sorteados =>
    simp only [executarAcao, criarSala] at he
    cases hg : gerarCodigoSala st.estado.salas sorteados with
    | none => rw [hg] at he; cases he
    | some codigo =>
      rw [hg] at he
      simp only [Option.some.injEq, Prod.mk.injEq] at he
      exact Or.inr (Or.inl ⟨socket, sorteados, codigo, rfl,
        (gerarCodigoSala_some _ _ _ hg).2, he.1.symm⟩)
  | entrarSala socket codigo nome =>
    simp only [executarAcao, Option.some.injEq] at he
    have h1 : (entrarSala st.estado socket codigo nome).1 = st'.estado := by rw [he]
    rcases entrarSala_cases st socket codigo nome with hc | ⟨ref, sala, sala', h2, h3, h4⟩
    · exact Or.inl (h1.symm.trans hc)
    · exact Or.inr (Or.inr (Or.inr ⟨ref, sala, sala', h2, h3, h1.symm.trans h4⟩))
  | iniciarRodada socket codigo =>
    simp only [executarAcao, Option.some.injEq] at he
    have h1 : (iniciarRodada st.estado socket codigo).1 = st'.estado := by rw [he]
    rcases iniciarRodada_cases st socket codigo with hc | ⟨ref, sala, sala', h2, h3, h4⟩
    · exact Or.inl (h1.symm.trans hc)
    · exact Or.inr (Or.inr (Or.inr ⟨ref, sala, sala', h2, h3, h1.symm.trans h4⟩))
  | responder socket codigo i =>
    simp only [executarAcao, Option.some.injEq] at he
    have h1 : (responder st.estado socket codigo i).1 = st'.estado := by rw [he]
    rcases responder_cases st socket codigo i with hc | ⟨ref, sala, sala', h2, h3, h4⟩
    · rw [hc] at h1; exact Or.inl h1.symm
    · rw [h4] at h1
      exact Or.inr (Or.inr (Or.inr ⟨ref, sala, sala', h2, h3, h1.symm⟩))
  | disconnect socket =>
    simp only [executarAcao, Option.some.injEq] at he
    exact Or.inr (Or.inr (Or.inl ⟨socket, rfl, by rw [he]⟩))
  | disparar k =>
    simp only [executarAcao] at he
    cases hk : st.timers[k]? with
    | none => rw [hk] at he; cases he
    | some t =>
      rw [hk] at he
      cases t with
      | prazo codigo =>
        simp only [dispararTimer] at he
        rcases finalizarRodada_cases st k codigo hk _ _ he with hc | ⟨ref, sala, sala', h2, h3, h4⟩
        · exact Or.inl hc.1
        · exact Or.inr (Or.inr (Or.inr ⟨ref, sala, sala', h2, h3, h4⟩))
      | retorno ref codigo =>
        simp only [dispararTimer, Option.some.injEq] at he
        have h1 : (voltarAoLobby st.estado ref codigo).1 = st'.estado := by rw [he]
        rcases voltarAoLobby_cases st k ref codigo hk with hc | ⟨sala, sala', h2, h3, h4⟩
        · exact Or.inl (h1.symm.trans hc)
        · exact Or.inr (Or.inr (Or.inr ⟨ref, sala, sala', h2, h3, h1.symm.trans h4⟩))

/-! ## Well-formedness of the reachable states -/

theorem Objeto.nodup_chaves_definir {κ α : Type} [DecidableEq κ] (o : Objeto κ α) (k : κ)
    (v : α) (h : (Objeto.chaves o).Nodup) : (Objeto.chaves (Objeto.definir o k v)).Nodup := by
  cases hk : Objeto.obter o k with
  | some x => rw [Objeto.chaves_definir_of_some _ _ _ (by simp [hk])]; exact h
  | none =>
    rw [Objeto.chaves_definir_of_none _ _ _ hk]
    rw [Objeto.obter_eq_none_iff] at hk
    exact List.Nodup.append h (List.nodup_singleton k) (by simpa using hk)

theorem Objeto.nodup_chaves_apagar {κ α : Type} [DecidableEq κ] (o : Objeto κ α) (k : κ)
    (h : (Objeto.chaves o).Nodup) : (Objeto.chaves (Objeto.apagar o k)).Nodup := by
  rw [Objeto.chaves_apagar]
  exact h.filter _

theorem getElem?_lt {α : Type} {l : List α} {n : Nat} {x : α} (h : l[n]? = some x) :
    n < l.length := by
  rcases Nat.lt_or_ge n l.length with h1 | h1
  · exact h1
  · rw [List.getElem?_eq_none h1] at h; cases h

theorem salaNova_integra (socket : SocketId) : (salaNova socket).Integra :=
  ⟨List.nodup_nil, List.nodup_nil, fun h => by cases h⟩

theorem semJogador_integra {socket : SocketId} {sala : Sala} (h : sala.Integra) :
    (semJogador socket sala).Integra :=
  ⟨Objeto.nodup_chaves_apagar _ _ h.jogadores_nodup, h.respostas_nodup, h.com_pergunta⟩

theorem Muda.integra {st : Sistema} {a : Acao} {ref : Nat} {sala sala' : Sala}
    (hm : Muda st a ref sala sala') (h : sala.Integra) : sala'.Integra := by
  cases hm with
  | entrou socket codigo nome _ _ _ hf =>
    exact ⟨Objeto.nodup_chaves_definir _ _ _ h.jogadores_nodup, h.respostas_nodup,
      fun hp => by simp only at hp; rw [hf] at hp; cases hp⟩
  | iniciou socket codigo _ _ _ _ =>
    exact ⟨h.jogadores_nodup, List.nodup_nil, fun _ => by simp⟩
  | respondeu socket codigo i _ _ _ _ _ _ _ =>
    exact ⟨h.jogadores_nodup, Objeto.nodup_chaves_definir _ _ _ h.respostas_nodup,
      h.com_pergunta⟩
  | finalizou k codigo _ _ p _ _ _ _ =>
    exact ⟨by simp only [pontuar_chaves]; exact h.jogadores_nodup, h.respostas_nodup,
      fun hp => by cases hp⟩
  | voltou k codigo _ _ _ =>
    exact ⟨h.jogadores_nodup, h.respostas_nodup, fun hp => by cases hp⟩

/-- Every turn of the event loop keeps the program state well formed. -/
theorem passo_integro {st st' : Sistema} {a : Acao} {efeitos : List Efeito}
    (hi : st.estado.Integro) (h : passo st a = some (st', efeitos)) : st'.estado.Integro := by
  rcases passo_cases h with he | ⟨socket, sorteados, codigo, _, hlivre, he⟩ | ⟨socket, _, he⟩ |
    ⟨ref, sala, sala', hget, hm, he⟩
  · rw [he]; exact hi
  · rw [he]
    refine ⟨?_, ?_, ?_⟩
    · intro c r hc
      simp only [List.length_append, List.length_singleton]
      by_cases hcc : c = codigo
      · subst hcc
        rw [Objeto.obter_definir_self] at hc
        cases hc; omega
      · rw [Objeto.obter_definir_ne _ _ hcc] at hc
        have := hi.refs_validas c r hc
        omega
    · intro c c' r hc hc'
      simp only at hc hc'
      by_cases hcc : c = codigo
      · by_cases hcc' : c' = codigo
        · rw [hcc, hcc']
        · subst hcc
          rw [Objeto.obter_definir_self] at hc
          rw [Objeto.obter_definir_ne _ _ hcc'] at hc'
          cases hc
          exact absurd (hi.refs_validas c' _ hc') (Nat.lt_irrefl _)
      · rw [Objeto.obter_definir_ne _ _ hcc] at hc
        by_cases hcc' : c' = codigo
        · subst hcc'
          rw [Objeto.obter_definir_self] at hc'
          cases hc'
          exact absurd (hi.refs_validas c _ hc) (Nat.lt_irrefl _)
        · rw [Objeto.obter_definir_ne _ _ hcc'] at hc'
          exact hi.refs_distintas c c' r hc hc'
    · intro x hx
      simp only [List.mem_append, List.mem_singleton] at hx
      rcases hx with hx | rfl
      · exact hi.salas_integras x hx
      · exact salaNova_integra socket
  · rw [he]
    obtain ⟨hlen, hsalas, hobj⟩ := disconnect_estado st.estado socket
    refine ⟨?_, ?_, ?_⟩
    · intro c r hc
      rw [hlen]
      exact hi.refs_validas c r (hsalas c r hc)
    · intro c c' r hc hc'
      exact hi.refs_distintas c c' r (hsalas c r hc) (hsalas c' r hc')
    · intro x hx
      obtain ⟨n, hn⟩ := List.getElem?_of_mem hx
      have hlt : n < st.estado.objetos.length := hlen ▸ getElem?_lt hn
      have hold : st.estado.objetos[n]? = some st.estado.objetos[n] :=
        List.getElem?_eq_getElem hlt
      have hint := hi.salas_integras _ (List.getElem_mem hlt)
      rcases hobj n _ hold with h1 | h1
      · rw [h1] at hn; cases hn; exact hint
      · rw [h1] at hn; cases hn; exact semJogador_integra hint
  · rw [he]
    refine ⟨?_, ?_, ?_⟩
    · intro c r hc
      simpa using hi.refs_validas c r hc
    · intro c c' r hc hc'
      exact hi.refs_distintas c c' r hc hc'
    · intro x hx
      rcases List.mem_or_eq_of_mem_set hx with hx | rfl
      · exact hi.salas_integras x hx
      · exact hm.integra (hi.salas_integras sala (List.getElem?_mem hget))

theorem vazio_integro : Estado.vazio.Integro :=
  ⟨fun c r h => by simp [Estado.vazio, Objeto.obter] at h,
    fun c c' r h => by simp [Estado.vazio, Objeto.obter] at h,
    fun x hx => by simp [Estado.vazio] at hx⟩

/-- Every state the system can be in is well formed. -/
theorem alcancavel_integro {st : Sistema} (h : Alcancavel st) : st.estado.Integro := by
  induction h with
  | inicial => exact vazio_integro
  | passo _ hp ih => exact passo_integro ih hp

/-- In a well-formed state every armed timer runs to completion when it
fires: `finalizarRodada` does not throw. -/
theorem passo_disparar_integro (st : Sistema) (k : Nat) (hi : st.estado.Integro)
    (hk : k < st.timers.length) : ∃ st' efeitos, passo st (.disparar k) = some (st', efeitos) := by
  have ht : st.timers[k]? = some st.timers[k] := List.getElem?_eq_getElem hk
  have hexec : ∃ s' efeitos, executarAcao st (.disparar k) = some (s', efeitos) := by
    simp only [executarAcao, ht]
    cases st.timers[k] with
    | retorno ref codigo => exact ⟨_, _, rfl⟩
    | prazo codigo =>
      simp only [dispararTimer]
      unfold finalizarRodada
      cases hs : st.estado.sala? codigo with
      | none => exact ⟨_, _, rfl⟩
      | some p =>
        obtain ⟨ref, sala⟩ := p
        by_cases hf : sala.fase = .pergunta
        · have hint := hi.salas_integras sala
            (List.getElem?_mem (Estado.sala?_eq_some.1 hs).2)
          cases hp : sala.perguntaAtual with
          | none => exact absurd hp (hint.com_pergunta hf)
          | some q => simp [hf, hp]
        · simp [hf]
  obtain ⟨s', efeitos, he⟩ := hexec
  exact ⟨_, _, by unfold passo; rw [he]⟩

/-! ## Runs -/

theorem executar_cons {st st' : Sistema} {a : Acao} {resto : List Acao}
    {saida : List (List Efeito)} (h : executar st (a :: resto) = some (st', saida)) :
    ∃ st1 ef out, passo st a = some (st1, ef) ∧ executar st1 resto = some (st', out) ∧
      saida = ef :: out := by
  unfold executar at h
  cases hp : passo st a with
  | none => rw [hp] at h; cases h
  | some p =>
    obtain ⟨st1, ef⟩ := p
    rw [hp] at h
    simp only at h
    cases hr : executar st1 resto with
    | none => rw [hr] at h; cases h
    | some q =>
      obtain ⟨st2, out⟩ := q
      rw [hr] at h
      simp only [Option.some.injEq, Prod.mk.injEq] at h
      exact ⟨st1, ef, out, rfl, by rw [hr, h.1], h.2.symm⟩

theorem alcancavel_executar {st : Sistema} (h : Alcancavel st) :
    ∀ (acoes : List Acao) (st' : Sistema) (saida : List (List Efeito)),
      executar st acoes = some (st', saida) → Alcancavel st' := by
  intro acoes
  induction acoes generalizing st with
  | nil =>
    intro st' saida he
    simp only [executar, Option.some.injEq, Prod.mk.injEq] at he
    rw [← he.1]; exact h
  | cons a resto ih =>
    intro st' saida he
    obtain ⟨st1, ef, out, hp, hr, _⟩ := executar_cons he
    exact ih (Alcancavel.passo h hp) st' out hr

/-- The system after a run from process start is reachable. -/
theorem alcancavel_apos (acoes : List Acao) : Alcancavel (Sistema.apos acoes) := by
  unfold Sistema.apos
  cases h : executar Sistema.inicial acoes with
  | none => exact Alcancavel.inicial
  | some r => exact alcancavel_executar Alcancavel.inicial acoes r.1 r.2 h

/-! ## Scores from one turn to the next (C9) -/

theorem buscar_mesma_ref {s s' : Estado} {codigo : String} {sala sala' : Sala}
    (hsalas : ∀ r, Objeto.obter s'.salas codigo = some r → Objeto.obter s.salas codigo = some r)
    (hs : s.buscar codigo = some sala) (hs' : s'.buscar codigo = some sala') :
    ∃ ref, Objeto.obter s.salas codigo = some ref ∧ s.objetos[ref]? = some sala ∧
      s'.objetos[ref]? = some sala' := by
  obtain ⟨r, hr⟩ := Estado.buscar_eq_some.1 hs
  obtain ⟨r', hr'⟩ := Estado.buscar_eq_some.1 hs'
  rw [Estado.sala?_eq_some] at hr hr'
  have := hsalas r' hr'.1
  rw [hr.1] at this
  cases this
  exact ⟨r, hr.1, hr.2, hr'.2⟩

/-- C9 as the code has it: the score of an identity that is a participant of
a room before and after a turn of the event loop does not decrease, unless the
turn is an `entrarSala` of that identity for that room while the room is in
the lobby (which stores a new record with `pontos` 0). -/
theorem passo_pontos_nao_diminuem (st st' : Sistema) (a : Acao) (efeitos : List Efeito)
    (codigo : String) (id : SocketId) (j j' : Jogador) (halc : Alcancavel st)
    (h : passo st a = some (st', efeitos))
    (ha : ∀ nome sala, a = .entrarSala id codigo nome →
      st.estado.buscar codigo = some sala → sala.fase ≠ .lobby)
    (hj : jogadorDe st.estado codigo id = some j)
    (hj' : jogadorDe st'.estado codigo id = some j') :
    j.pontos ≤ j'.pontos := by
  have hi := alcancavel_integro halc
  unfold jogadorDe at hj hj'
  cases hs : st.estado.buscar codigo with
  | none => rw [hs] at hj; cases hj
  | some sala =>
    cases hs' : st'.estado.buscar codigo with
    | none => rw [hs'] at hj'; cases hj'
    | some sala' =>
      rw [hs] at hj; rw [hs'] at hj'
      simp only [Option.some_bind] at hj hj'
      rcases passo_cases h with he | ⟨socket, sorteados, codigo', _, hlivre, he⟩ |
        ⟨socket, _, he⟩ | ⟨ref, x, x', hget, hm, he⟩
      · rw [he, hs] at hs'
        cases hs'
        rw [hj] at hj'; cases hj'; exact Nat.le_refl _
      · rw [he, buscar_criarSala _ hlivre hs] at hs'
        cases hs'
        rw [hj] at hj'; cases hj'; exact Nat.le_refl _
      · obtain ⟨_, hsalas, hobj⟩ := disconnect_estado st.estado socket
        rw [he] at hs'
        obtain ⟨r, _, hr2, hr3⟩ := buscar_mesma_ref (fun r => hsalas codigo r) hs hs'
        rcases hobj r sala hr2 with h1 | h1
        · rw [h1] at hr3; cases hr3
          rw [hj] at hj'; cases hj'; exact Nat.le_refl _
        · rw [h1] at hr3; cases hr3
          have := obter_apagar_some hj'
          rw [hj] at this; cases this; exact Nat.le_refl _
      · rw [he] at hs'
        obtain ⟨r, hr1, hr2, hr3⟩ := buscar_mesma_ref (fun r hr => by simpa using hr) hs hs'
        by_cases hrr : ref = r
        · subst hrr
          rw [Estado.gravar_get_self _ hget] at hr3
          rw [hget] at hr2
          cases hr2; cases hr3
          cases hm with
          | entrou socket c nome _ _ hc hf =>
            have hcc : c = codigo := hi.refs_distintas c codigo ref hc hr1
            subst hcc
            have hne : id ≠ socket := fun e => ha nome sala (by rw [e]) hs hf
            simp only at hj'
            rw [Objeto.obter_definir_ne _ _ hne, hj] at hj'
            cases hj'; exact Nat.le_refl _
          | iniciou socket c _ _ _ _ =>
            simp only at hj'
            rw [hj] at hj'; cases hj'; exact Nat.le_refl _
          | respondeu socket c i _ _ _ _ _ _ _ =>
            simp only at hj'
            rw [hj] at hj'; cases hj'; exact Nat.le_refl _
          | finalizou k c _ _ p _ _ _ _ =>
            simp only at hj'
            rw [pontuar_obter p.correta _ _
              (hi.salas_integras _ (List.getElem?_mem hget)).respostas_nodup id j hj] at hj'
            cases hj'
            exact Nat.le_add_right _ _
          | voltou k c _ _ _ =>
            simp only at hj'
            rw [hj] at hj'; cases hj'; exact Nat.le_refl _
        · rw [Estado.gravar_get_ne _ _ hrr, hr2] at hr3
          cases hr3
          rw [hj] at hj'; cases hj'; exact Nat.le_refl _

theorem passo_pontos_nao_diminuem_witness :
    jogadorDe (Sistema.apos [.criarSala 1 [0, 0, 0, 0], .entrarSala 2 "AAAA" (some "Bea"),
        .iniciarRodada 1 "AAAA", .responder 2 "AAAA" (.finito 1 0)]).estado "AAAA" 2 =
        some ⟨"Bea", 0⟩ ∧
      (0 : Nat) ≤ 1 :=
  ⟨by decide,
    passo_pontos_nao_diminuem
      (Sistema.apos [.criarSala 1 [0, 0, 0, 0], .entrarSala 2 "AAAA" (some "Bea"),
        .iniciarRodada 1 "AAAA", .responder 2 "AAAA" (.finito 1 0)])
      (Sistema.apos [.criarSala 1 [0, 0, 0, 0], .entrarSala 2 "AAAA" (some "Bea"),
        .iniciarRodada 1 "AAAA", .responder 2 "AAAA" (.finito 1 0), .disparar 0])
      (.disparar 0)
      [.broadcast "AAAA" (.resultadoRodada 1 [⟨"Bea", 1⟩]),
        .setTimeout (.retorno 0 "AAAA") 5000]
      "AAAA" 2 ⟨"Bea", 0⟩ ⟨"Bea", 1⟩ (alcancavel_apos _) (by decide)
      (fun nome sala hn => by cases hn) (by decide) (by decide)⟩

/-- C9, counterexample: after a round in which participant 2 scored a point
and the room is back in the lobby, a second `entrarSala` of 2 for the same room
leaves 2 a participant and takes its `pontos` from 1 to 0. -/
theorem entrarSala_zera_pontos :
    jogadorDe (Sistema.apos [.criarSala 1 [0, 0, 0, 0], .entrarSala 2 "AAAA" (some "Bea"),
        .iniciarRodada 1 "AAAA", .responder 2 "AAAA" (.finito 1 0), .disparar 0,
        .disparar 0]).estado "AAAA" 2 = some ⟨"Bea", 1⟩ ∧
      (passo (Sistema.apos [.criarSala 1 [0, 0, 0, 0], .entrarSala 2 "AAAA" (some "Bea"),
        .iniciarRodada 1 "AAAA", .responder 2 "AAAA" (.finito 1 0), .disparar 0,
        .disparar 0]) (.entrarSala 2 "AAAA" (some "Bea"))).bind
          (fun r => jogadorDe r.1.estado "AAAA" 2) = some ⟨"Bea", 0⟩ := by
  decide

/-! ## Answers and participants (C8) -/

theorem vazio_respostasDeJogadores : RespostasDeJogadores Estado.vazio := by
  intro codigo sala h
  simp [Estado.buscar, Estado.sala?, Estado.vazio, Objeto.obter] at h

theorem Muda.respostasDeJogadores {st : Sistema} {a : Acao} {ref : Nat} {sala sala' : Sala}
    (hm : Muda st a ref sala sala')
    (h : ∀ id, id ∈ Objeto.chaves sala.respostasRecebidas → id ∈ Objeto.chaves sala.jogadores) :
    ∀ id, id ∈ Objeto.chaves sala'.respostasRecebidas → id ∈ Objeto.chaves sala'.jogadores := by
  intro id hid
  cases hm with
  | entrou socket codigo nome _ _ _ _ =>
    simp only at hid ⊢
    have := h id hid
    cases hs : Objeto.obter sala.jogadores socket with
    | some x => rw [Objeto.chaves_definir_of_some _ _ _ (by simp [hs])]; exact this
    | none =>
      rw [Objeto.chaves_definir_of_none _ _ _ hs]
      exact List.mem_append_left _ this
  | iniciou socket codigo _ _ _ _ =>
    simp [Objeto.chaves] at hid
  | respondeu socket codigo i _ _ _ _ hj _ hr =>
    simp only at hid ⊢
    rw [Objeto.chaves_definir_of_none _ _ _ hr] at hid
    rcases List.mem_append.1 hid with hid | hid
    · exact h id hid
    · simp only [List.mem_singleton] at hid
      subst hid
      exact (Objeto.obter_isSome_iff _ _).1 hj
  | finalizou k codigo _ _ p _ _ _ _ =>
    simp only at hid ⊢
    rw [pontuar_chaves]
    exact h id hid
  | voltou k codigo _ _ _ => exact h id hid

/-- C8 as the code has it, room by room: a room that is in the registry
after a turn of the event loop has the keys of its `respostasRecebidas` among
the keys of its `jogadores`, provided that this was so before the turn if the
room was already there (a room just created has no answers), and that the turn
is not the `disconnect` of a socket that has an entry in the
`respostasRecebidas` of this room and does not host it (the handler deletes
the socket from `jogadores` and leaves `respostasRecebidas` alone). Nothing
is assumed of the other rooms. -/
theorem passo_respostasDeJogadores (st st' : Sistema) (a : Acao) (efeitos : List Efeito)
    (codigo : String) (sala' : Sala)
    (h : passo st a = some (st', efeitos))
    (hs' : st'.estado.buscar codigo = some sala')
    (hantes : ∀ sala, st.estado.buscar codigo = some sala →
      ∀ id, id ∈ Objeto.chaves sala.respostasRecebidas → id ∈ Objeto.chaves sala.jogadores)
    (ha : ∀ socket sala, a = .disconnect socket →
      st.estado.buscar codigo = some sala → sala.hostId ≠ socket →
        socket ∉ Objeto.chaves sala.respostasRecebidas) :
    ∀ id, id ∈ Objeto.chaves sala'.respostasRecebidas → id ∈ Objeto.chaves sala'.jogadores := by
  intro id hid
  rcases passo_cases h with he | ⟨socket, sorteados, codigo', _, hlivre, he⟩ |
    ⟨socket, hsock, he⟩ | ⟨ref, x, x', hget, hm, he⟩
  · rw [he] at hs'
    exact hantes sala' hs' id hid
  · rw [he] at hs'
    obtain ⟨r, hr⟩ := Estado.buscar_eq_some.1 hs'
    rw [Estado.sala?_eq_some] at hr
    simp only at hr
    rcases Nat.lt_or_ge r st.estado.objetos.length with hlt | hge
    · rw [List.getElem?_append_left hlt] at hr
      have hne : codigo ≠ codigo' := by
        rintro rfl
        rw [Objeto.obter_definir_self] at hr
        have := hr.1
        cases this
        exact Nat.lt_irrefl _ hlt
      rw [Objeto.obter_definir_ne _ _ hne] at hr
      exact hantes sala' (Estado.buscar_eq_some.2 ⟨r, Estado.sala?_eq_some.2 hr⟩) id hid
    · rw [List.getElem?_append_right hge] at hr
      have := List.getElem?_mem hr.2
      simp only [List.mem_singleton] at this
      subst this
      simp [salaNova, Objeto.chaves] at hid
  · rw [he] at hs'
    obtain ⟨hlen, hsalas, hobj⟩ := disconnect_estado st.estado socket
    obtain ⟨r, hr⟩ := Estado.buscar_eq_some.1 hs'
    have hhost := disconnect_sem_host st.estado socket codigo r sala' hr
    rw [Estado.sala?_eq_some] at hr
    have hlt : r < st.estado.objetos.length := hlen ▸ getElem?_lt hr.2
    have hold : st.estado.objetos[r]? = some st.estado.objetos[r] :=
      List.getElem?_eq_getElem hlt
    have hbusca : st.estado.buscar codigo = some st.estado.objetos[r] :=
      Estado.buscar_eq_some.2 ⟨r, Estado.sala?_eq_some.2 ⟨hsalas codigo r hr.1, hold⟩⟩
    rcases hobj r _ hold with h1 | h1
    · rw [h1] at hr
      obtain ⟨_, hr2⟩ := hr
      cases hr2
      exact hantes _ hbusca id hid
    · rw [h1] at hr
      obtain ⟨_, hr2⟩ := hr
      cases hr2
      have hmem := hantes _ hbusca id hid
      have hnot := ha socket _ hsock hbusca hhost
      simp only [semJogador] at hid ⊢
      rw [Objeto.chaves_apagar, List.mem_filter]
      refine ⟨hmem, ?_⟩
      simp only [ne_eq, decide_not, Bool.not_eq_true', decide_eq_false_iff_not]
      rintro rfl
      exact hnot hid
  · rw [he] at hs'
    obtain ⟨r, hr⟩ := Estado.buscar_eq_some.1 hs'
    rw [Estado.sala?_eq_some] at hr
    simp only [Estado.gravar_salas] at hr
    by_cases hrr : ref = r
    · subst hrr
      rw [Estado.gravar_get_self _ hget] at hr
      obtain ⟨hr1, hr2⟩ := hr
      cases hr2
      exact hm.respostasDeJogadores
        (hantes x (Estado.buscar_eq_some.2 ⟨ref, Estado.sala?_eq_some.2 ⟨hr1, hget⟩⟩))
        id hid
    · rw [Estado.gravar_get_ne _ _ hrr] at hr
      exact hantes sala' (Estado.buscar_eq_some.2 ⟨r, Estado.sala?_eq_some.2 hr⟩) id hid

theorem passo_respostasDeJogadores_witness :
    ¬ RespostasDeJogadores (Sistema.apos [.criarSala 1 [0, 0, 0, 0], .criarSala 5 [1, 1, 1, 1],
        .entrarSala 2 "AAAA" (some "Bea"), .entrarSala 6 "BBBB" (some "Caio"),
        .entrarSala 7 "BBBB" (some "Duda"), .iniciarRodada 1 "AAAA", .iniciarRodada 5 "BBBB",
        .responder 2 "AAAA" (.finito 1 0), .responder 6 "BBBB" (.finito 1 0),
        .disconnect 2]).estado ∧
      ∀ id, id ∈ Objeto.chaves [((6 : SocketId), Numero.finito 1 0)] →
        id ∈ Objeto.chaves [((6 : SocketId), (⟨"Caio", 0⟩ : Jogador))] :=
  ⟨fun hinv =>
      absurd
        (hinv "AAAA"
          { hostId := 1, jogadores := [], fase := .pergunta,
            perguntaAtual := some obterPerguntaExemplo,
            respostasRecebidas := [(2, .finito 1 0)] }
          (by decide) 2 (by decide))
        (by decide),
    passo_respostasDeJogadores
      (Sistema.apos [.criarSala 1 [0, 0, 0, 0], .criarSala 5 [1, 1, 1, 1],
        .entrarSala 2 "AAAA" (some "Bea"), .entrarSala 6 "BBBB" (some "Caio"),
        .entrarSala 7 "BBBB" (some "Duda"), .iniciarRodada 1 "AAAA", .iniciarRodada 5 "BBBB",
        .responder 2 "AAAA" (.finito 1 0), .responder 6 "BBBB" (.finito 1 0),
        .disconnect 2])
      (Sistema.apos [.criarSala 1 [0, 0, 0, 0], .criarSala 5 [1, 1, 1, 1],
        .entrarSala 2 "AAAA" (some "Bea"), .entrarSala 6 "BBBB" (some "Caio"),
        .entrarSala 7 "BBBB" (some "Duda"), .iniciarRodada 1 "AAAA", .iniciarRodada 5 "BBBB",
        .responder 2 "AAAA" (.finito 1 0), .responder 6 "BBBB" (.finito 1 0),
        .disconnect 2, .disconnect 7])
      (.disconnect 7) [.broadcast "BBBB" (.estadoLobby ["Caio"])] "BBBB"
      { hostId := 5, jogadores := [(6, ⟨"Caio", 0⟩)], fase := .pergunta,
        perguntaAtual := some obterPerguntaExemplo,
        respostasRecebidas := [(6, .finito 1 0)] }
      (by decide) (by decide)
      (fun sala hs =>
        have he : sala =
            { hostId := 5, jogadores := [(6, ⟨"Caio", 0⟩), (7, ⟨"Duda", 0⟩)], fase := .pergunta,
              perguntaAtual := some obterPerguntaExemplo,
              respostasRecebidas := [(6, .finito 1 0)] } :=
          Option.some.inj (hs.symm.trans (by decide))
        by subst he; decide)
      (fun socket sala hd hs _ =>
        have he : sala =
            { hostId := 5, jogadores := [(6, ⟨"Caio", 0⟩), (7, ⟨"Duda", 0⟩)], fase := .pergunta,
              perguntaAtual := some obterPerguntaExemplo,
              respostasRecebidas := [(6, .finito 1 0)] } :=
          Option.some.inj (hs.symm.trans (by decide))
        by subst he; cases hd; decide)⟩

/-- C8, counterexample: host 1 creates a room, 2 joins, 1 starts a round,
2 answers, 2 disconnects. The state is reachable, the room is still in the
registry, 2 is a key of its `respostasRecebidas` and not of its `jogadores`. -/
theorem disconnect_deixa_resposta :
    Alcancavel (Sistema.apos [.criarSala 1 [0, 0, 0, 0], .entrarSala 2 "AAAA" (some "Bea"),
        .iniciarRodada 1 "AAAA", .responder 2 "AAAA" (.finito 1 0), .disconnect 2]) ∧
      ¬ RespostasDeJogadores (Sistema.apos [.criarSala 1 [0, 0, 0, 0],
        .entrarSala 2 "AAAA" (some "Bea"), .iniciarRodada 1 "AAAA",
        .responder 2 "AAAA" (.finito 1 0), .disconnect 2]).estado :=
  ⟨alcancavel_apos _, fun h =>
    absurd
      (h "AAAA"
        { hostId := 1, jogadores := [], fase := .pergunta,
          perguntaAtual := some obterPerguntaExemplo,
          respostasRecebidas := [(2, .finito 1 0)] }
        (by decide) 2 (by decide))
      (by decide)⟩

/-! ## The first answer stands (C4) -/

theorem respostaDe_eq_some {s : Estado} {ref : Nat} {socket : SocketId} {v : Numero} :
    respostaDe s ref socket = some v ↔
      ∃ sala, s.objetos[ref]? = some sala ∧
        Objeto.obter sala.respostasRecebidas socket = some v := by
  unfold respostaDe
  cases h : s.objetos[ref]? with
  | none => simp
  | some x => simp

theorem passo_guardada {codigo : String} {ref : Nat} {socket : SocketId} {v : Numero}
    {st st' : Sistema} {a : Acao} {efeitos : List Efeito}
    (hg : Guardada codigo ref socket v st.estado)
    (h : passo st a = some (st', efeitos))
    (ha : ∀ s, a ≠ .iniciarRodada s codigo) :
    Guardada codigo ref socket v st'.estado := by
  have hint := passo_integro hg.integro h
  obtain ⟨sala0, hsala0, hresp0⟩ := respostaDe_eq_some.1 hg.resposta
  rcases passo_cases h with he | ⟨sock, sorteados, codigo', _, hlivre, he⟩ |
    ⟨sock, _, he⟩ | ⟨r0, x, x', hget, hm, he⟩
  · rw [he]; exact hg
  · refine ⟨hint, ?_, ?_, ?_, ?_⟩
    · rw [he]; simp only [List.length_append, List.length_singleton]
      exact Nat.lt_succ_of_lt hg.valida
    · rw [he]
      exact respostaDe_eq_some.2 ⟨sala0, by
        simp only [List.getElem?_append_left hg.valida]; exact hsala0, hresp0⟩
    · intro c hc
      rw [he] at hc
      simp only at hc
      by_cases hcc : c = codigo'
      · subst hcc
        rw [Objeto.obter_definir_self] at hc
        cases hc
        exact absurd hg.valida (Nat.lt_irrefl _)
      · rw [Objeto.obter_definir_ne _ _ hcc] at hc
        exact hg.so_codigo c hc
    · intro r hr hne
      rw [he] at hr ⊢
      simp only at hr ⊢
      by_cases hcc : codigo = codigo'
      · subst hcc
        rw [Objeto.obter_definir_self] at hr
        cases hr
        exact ⟨salaNova sock, by simp, rfl⟩
      · rw [Objeto.obter_definir_ne _ _ hcc] at hr
        obtain ⟨y, hy, hfase⟩ := hg.outra_no_lobby r hr hne
        exact ⟨y, by rw [List.getElem?_append_left (getElem?_lt hy)]; exact hy, hfase⟩
  · obtain ⟨hlen, hsalas, hobj⟩ := disconnect_estado st.estado sock
    refine ⟨hint, ?_, ?_, ?_, ?_⟩
    · rw [he, hlen]; exact hg.valida
    · rw [he]
      rcases hobj ref sala0 hsala0 with h1 | h1
      · exact respostaDe_eq_some.2 ⟨sala0, h1, hresp0⟩
      · exact respostaDe_eq_some.2 ⟨_, h1, hresp0⟩
    · intro c hc
      rw [he] at hc
      exact hg.so_codigo c (hsalas c ref hc)
    · intro r hr hne
      rw [he] at hr ⊢
      obtain ⟨y, hy, hfase⟩ := hg.outra_no_lobby r (hsalas codigo r hr) hne
      rcases hobj r y hy with h1 | h1
      · exact ⟨y, h1, hfase⟩
      · exact ⟨_, h1, hfase⟩
  · refine ⟨hint, ?_, ?_, ?_, ?_⟩
    · rw [he]; simpa using hg.valida
    · rw [he]
      by_cases hrr : r0 = ref
      · subst hrr
        rw [hget] at hsala0
        cases hsala0
        refine respostaDe_eq_some.2 ⟨x', Estado.gravar_get_self _ hget, ?_⟩
        cases hm with
        | entrou s c nome _ _ _ _ => exact hresp0
        | iniciou s c _ _ hc _ => exact absurd (by rw [hg.so_codigo c hc]) (ha s)
        | respondeu s c i _ _ _ _ _ _ hr =>
          have hne : socket ≠ s := by
            rintro rfl
            rw [hr] at hresp0; cases hresp0
          simp only
          rw [Objeto.obter_definir_ne _ _ hne]; exact hresp0
        | finalizou k c _ _ p _ _ _ _ => exact hresp0
        | voltou k c _ _ _ => exact hresp0
      · exact respostaDe_eq_some.2 ⟨sala0, by rw [Estado.gravar_get_ne _ _ hrr]; exact hsala0,
          hresp0⟩
    · intro c hc
      rw [he] at hc
      exact hg.so_codigo c hc
    · intro r hr hne
      rw [he] at hr ⊢
      simp only [Estado.gravar_salas] at hr
      obtain ⟨y, hy, hfase⟩ := hg.outra_no_lobby r hr hne
      by_cases hrr : r0 = r
      · subst hrr
        rw [hget] at hy
        cases hy
        refine ⟨x', Estado.gravar_get_self _ hget, ?_⟩
        cases hm with
        | entrou s c nome _ _ _ _ => exact hfase
        | iniciou s c _ _ hc _ =>
          exact absurd (by rw [hg.integro.refs_distintas c codigo r0 hc hr]) (ha s)
        | respondeu s c i _ _ _ _ _ _ _ => exact hfase
        | finalizou k c _ _ p _ _ hf _ => rw [hfase] at hf; cases hf
        | voltou k c _ _ _ => rfl
      · exact ⟨y, by rw [Estado.gravar_get_ne _ _ hrr]; exact hy, hfase⟩

theorem executar_guardada {codigo : String} {ref : Nat} {socket : SocketId} {v : Numero} :
    ∀ (acoes : List Acao) (st st' : Sistema) (saida : List (List Efeito)),
      Guardada codigo ref socket v st.estado → semIniciar codigo acoes = true →
      executar st acoes = some (st', saida) → Guardada codigo ref socket v st'.estado := by
  intro acoes
  induction acoes with
  | nil =>
    intro st st' saida hg _ he
    simp only [executar, Option.some.injEq, Prod.mk.injEq] at he
    rw [← he.1]; exact hg
  | cons a resto ih =>
    intro st st' saida hg hsem he
    obtain ⟨st1, ef, out, hp, hr, _⟩ := executar_cons he
    simp only [semIniciar, List.all_cons, Bool.and_eq_true] at hsem
    refine ih st1 st' out (passo_guardada hg hp ?_) (by simpa [semIniciar] using hsem.2) hr
    intro s hs
    subst hs
    simp at hsem

theorem responder_guardada {codigo : String} {ref : Nat} {socket : SocketId} {v : Numero}
    {st : Sistema} (hg : Guardada codigo ref socket v st.estado) (i : Numero) :
    passo st (.responder socket codigo i) = some (st, []) := by
  have hr : responder st.estado socket codigo i = (st.estado, []) := by
    rcases responder_cases st socket codigo i with hc | ⟨r, x, x', hget, hm, _⟩
    · exact hc
    · exfalso
      obtain ⟨sala0, hsala0, hresp0⟩ := respostaDe_eq_some.1 hg.resposta
      cases hm with
      | respondeu _ _ _ _ _ hc hf _ _ hnone =>
        by_cases hrr : r = ref
        · subst hrr
          rw [hget] at hsala0
          cases hsala0
          rw [hnone] at hresp0
          cases hresp0
        · obtain ⟨y, hy, hfase⟩ := hg.outra_no_lobby r hc hrr
          rw [hget] at hy
          cases hy
          rw [hfase] at hf
          cases hf
  simp [passo, executarAcao, timersRestantes, hr, armados]

/-- C4: after a `responder` of an identity for a room, once the room's
`respostasRecebidas` has an entry for that identity (the value sent by that
action, when the action is the one that recorded it), any run with no
`iniciarRodada` for that room's code leads to a state in which a further
`responder` of the same identity for the room changes nothing and has no
effect, hence sends no `respostaRecebida`, and the entry of the room object is
still the first recorded value. -/
theorem responder_nao_sobrescreve (st st1 st2 : Sistema) (socket : SocketId) (codigo : String)
    (i i' v : Numero) (ref : Nat) (ef1 : List Efeito) (acoes : List Acao)
    (saida : List (List Efeito)) (halc : Alcancavel st)
    (h1 : passo st (.responder socket codigo i) = some (st1, ef1))
    (href : Objeto.obter st1.estado.salas codigo = some ref)
    (hset : respostaDe st1.estado ref socket = some v)
    (hsem : semIniciar codigo acoes = true)
    (h2 : executar st1 acoes = some (st2, saida)) :
    passo st2 (.responder socket codigo i') = some (st2, []) ∧
      respostaDe st2.estado ref socket = some v ∧
      (ef1 = [.emit socket .respostaRecebida] → v = i) := by
  have hint := passo_integro (alcancavel_integro halc) h1
  have hg1 : Guardada codigo ref socket v st1.estado :=
    ⟨hint, hint.refs_validas codigo ref href, hset,
      fun c hc => hint.refs_distintas c codigo ref hc href,
      fun r hr hne => by rw [href] at hr; cases hr; exact absurd rfl hne⟩
  have hg2 := executar_guardada acoes st1 st2 saida hg1 hsem h2
  refine ⟨responder_guardada hg2 i', hg2.resposta, ?_⟩
  intro hef
  obtain ⟨he, _⟩ := passo_eq_some h1
  simp only [executarAcao, Option.some.injEq] at he
  rcases responder_cases st socket codigo i with hc | ⟨r, x, x', hget, hm, hc⟩
  · rw [hc] at he
    simp only [Prod.mk.injEq] at he
    rw [hef] at he
    cases he.2
  · rw [hc] at he
    simp only [Prod.mk.injEq] at he
    cases hm with
    | respondeu _ _ _ _ _ hcod _ _ _ _ =>
      rw [← he.1] at href hset
      simp only [Estado.gravar_salas] at href
      rw [hcod] at href
      cases href
      obtain ⟨y, hy, hv⟩ := respostaDe_eq_some.1 hset
      rw [Estado.gravar_get_self _ hget] at hy
      cases hy
      simp only at hv
      rw [Objeto.obter_definir_self] at hv
      cases hv
      rfl

theorem responder_nao_sobrescreve_witness :
    passo (Sistema.apos [.criarSala 1 [0, 0, 0, 0], .entrarSala 2 "AAAA" (some "Bea"),
        .iniciarRodada 1 "AAAA", .responder 2 "AAAA" (.finito 1 0), .disconnect 3,
        .entrarSala 3 "AAAA" none]) (.responder 2 "AAAA" (.finito 0 0)) =
      some (Sistema.apos [.criarSala 1 [0, 0, 0, 0], .entrarSala 2 "AAAA" (some "Bea"),
        .iniciarRodada 1 "AAAA", .responder 2 "AAAA" (.finito 1 0), .disconnect 3,
        .entrarSala 3 "AAAA" none], []) ∧
      respostaDe (Sistema.apos [.criarSala 1 [0, 0, 0, 0], .entrarSala 2 "AAAA" (some "Bea"),
        .iniciarRodada 1 "AAAA", .responder 2 "AAAA" (.finito 1 0), .disconnect 3,
        .entrarSala 3 "AAAA" none]).estado 0 2 = some (.finito 1 0) ∧
      ([Efeito.emit 2 Evento.respostaRecebida] = [.emit 2 .respostaRecebida] →
        Numero.finito 1 0 = .finito 1 0) :=
  responder_nao_sobrescreve
    (Sistema.apos [.criarSala 1 [0, 0, 0, 0], .entrarSala 2 "AAAA" (some "Bea"),
      .iniciarRodada 1 "AAAA"])
    (Sistema.apos [.criarSala 1 [0, 0, 0, 0], .entrarSala 2 "AAAA" (some "Bea"),
      .iniciarRodada 1 "AAAA", .responder 2 "AAAA" (.finito 1 0)])
    (Sistema.apos [.criarSala 1 [0, 0, 0, 0], .entrarSala 2 "AAAA" (some "Bea"),
      .iniciarRodada 1 "AAAA", .responder 2 "AAAA" (.finito 1 0), .disconnect 3,
      .entrarSala 3 "AAAA" none])
    2 "AAAA" (.finito 1 0) (.finito 0 0) (.finito 1 0) 0 [.emit 2 .respostaRecebida]
    [.disconnect 3, .entrarSala 3 "AAAA" none]
    [[], [.emit 3 (.erro "Jogo já iniciou. Aguarde a próxima.")]]
    (alcancavel_apos _) (by decide) (by decide) (by decide) (by decide) (by decide)

/-! ## Phases and timers on concrete runs (C1, C6) -/

/-- C1, on the code: host 1 creates a room and starts a round, and the deadline
timer ends it. During the result pause the host starts a round again, which
takes the room from "resultado" to "pergunta"; the timer armed at the end of
the first round then fires and takes the room from "pergunta" to "lobby". -/
theorem fases_fora_do_ciclo :
    fases "AAAA" Sistema.inicial
        [.criarSala 1 [0, 0, 0, 0], .iniciarRodada 1 "AAAA", .disparar 0,
          .iniciarRodada 1 "AAAA", .disparar 0] =
      [some .lobby, some .pergunta, some .resultado, some .pergunta, some .lobby] := by
  decide

/-- A turn of the event loop changes the fase of a room object only in three
ways: `iniciarRodada` of its host sets "pergunta" whatever the fase was, the
deadline timer takes "pergunta" to "resultado", and the timer armed by
`finalizarRodada` sets "lobby" whatever the fase is by then. -/
theorem passo_fase {st st' : Sistema} {a : Acao} {efeitos : List Efeito} {ref : Nat}
    {sala sala' : Sala} (h : passo st a = some (st', efeitos))
    (hget : st.estado.objetos[ref]? = some sala)
    (hget' : st'.estado.objetos[ref]? = some sala') :
    sala'.fase = sala.fase ∨
      (sala'.fase = .pergunta ∧ ∃ codigo, a = .iniciarRodada sala.hostId codigo) ∨
      (sala.fase = .pergunta ∧ sala'.fase = .resultado ∧
        ∃ k codigo, a = .disparar k ∧ st.timers[k]? = some (.prazo codigo)) ∨
      (sala'.fase = .lobby ∧
        ∃ k codigo, a = .disparar k ∧ st.timers[k]? = some (.retorno ref codigo)) := by
  rcases passo_cases h with he | ⟨socket, sorteados, codigo', _, _, he⟩ |
    ⟨socket, _, he⟩ | ⟨r0, x, x', hx, hm, he⟩
  · rw [he, hget] at hget'; cases hget'; exact Or.inl rfl
  · rw [he] at hget'
    simp only [List.getElem?_append_left (getElem?_lt hget)] at hget'
    rw [hget] at hget'; cases hget'; exact Or.inl rfl
  · rw [he] at hget'
    rcases (disconnect_estado st.estado socket).2.2 ref sala hget with h1 | h1
    · rw [h1] at hget'; cases hget'; exact Or.inl rfl
    · rw [h1] at hget'; cases hget'; exact Or.inl rfl
  · rw [he] at hget'
    by_cases hrr : r0 = ref
    · subst hrr
      rw [Estado.gravar_get_self _ hx] at hget'
      rw [hx] at hget
      cases hget; cases hget'
      cases hm with
      | entrou s c nome _ _ _ _ => exact Or.inl rfl
      | iniciou s c _ _ _ hh => exact Or.inr (Or.inl ⟨rfl, c, by rw [hh]⟩)
      | respondeu s c i _ _ _ _ _ _ _ => exact Or.inl rfl
      | finalizou k c _ _ p hk _ hf _ => exact Or.inr (Or.inr (Or.inl ⟨hf, rfl, k, c, rfl, hk⟩))
      | voltou k c _ _ hk => exact Or.inr (Or.inr (Or.inr ⟨rfl, k, c, rfl, hk⟩))
    · rw [Estado.gravar_get_ne _ _ hrr, hget] at hget'
      cases hget'; exact Or.inl rfl

/-- After the `disconnect` handler has run for the host of a room, the code of
the room is in the registry no more. -/
theorem disconnect_remove_sala (s : Estado) (socket : SocketId) (codigo : String)
    (sala : Sala) (hs : s.buscar codigo = some sala) (hh : sala.hostId = socket) :
    (disconnect s socket).1.buscar codigo = none := by
  cases hb : (disconnect s socket).1.buscar codigo with
  | none => rfl
  | some sala' =>
    exfalso
    obtain ⟨r, hr⟩ := Estado.buscar_eq_some.1 hb
    have hhost := disconnect_sem_host s socket codigo r sala' hr
    obtain ⟨_, hsalas, hobj⟩ := disconnect_estado s socket
    obtain ⟨r', hr1, hr2, hr3⟩ := buscar_mesma_ref (fun r => hsalas codigo r) hs hb
    rcases hobj r' sala hr2 with h1 | h1
    · rw [h1] at hr3; cases hr3; exact hhost hh
    · rw [h1] at hr3; cases hr3; exact hhost hh

/-- A deadline timer that fires for a code with no room does nothing. -/
theorem finalizarRodada_sem_sala (s : Estado) (codigo : String)
    (h : s.buscar codigo = none) : finalizarRodada s codigo = some (s, []) := by
  unfold finalizarRodada
  rw [Estado.buscar_eq_none.1 h]

/-- C6, on the code: host 1 creates a room, 2 joins, a round runs to its
deadline, and the host disconnects during the result pause. The code is then
in no room of the registry, the timer armed by `finalizarRodada` is still
armed, and its firing broadcasts `estadoLobby` to the code of the room that is
gone. When a new room has taken the same code in between, that room, with no
participant, is sent the name list of the old one. -/
theorem retorno_dispara_sem_sala :
    (Sistema.apos [.criarSala 1 [0, 0, 0, 0], .entrarSala 2 "AAAA" (some "Bea"),
        .iniciarRodada 1 "AAAA", .disparar 0, .disconnect 1]).estado.buscar "AAAA" = none ∧
      (Sistema.apos [.criarSala 1 [0, 0, 0, 0], .entrarSala 2 "AAAA" (some "Bea"),
        .iniciarRodada 1 "AAAA", .disparar 0, .disconnect 1]).timers = [.retorno 0 "AAAA"] ∧
      (passo (Sistema.apos [.criarSala 1 [0, 0, 0, 0], .entrarSala 2 "AAAA" (some "Bea"),
        .iniciarRodada 1 "AAAA", .disparar 0, .disconnect 1]) (.disparar 0)).map Prod.snd =
        some [.broadcast "AAAA" (.estadoLobby ["Bea"])] ∧
      (Sistema.apos [.criarSala 1 [0, 0, 0, 0], .entrarSala 2 "AAAA" (some "Bea"),
        .iniciarRodada 1 "AAAA", .disparar 0, .disconnect 1,
        .criarSala 3 [0, 0, 0, 0]]).estado.buscar "AAAA" = some (salaNova 3) ∧
      (passo (Sistema.apos [.criarSala 1 [0, 0, 0, 0], .entrarSala 2 "AAAA" (some "Bea"),
        .iniciarRodada 1 "AAAA", .disparar 0, .disconnect 1, .criarSala 3 [0, 0, 0, 0]])
        (.disparar 0)).map Prod.snd = some [.broadcast "AAAA" (.estadoLobby ["Bea"])] := by
  decide

/-! ## Starting a round (C11) -/

/-- C11: for an existing room and a requester that is its `hostId`,
`iniciarRodada` leaves the room with fase "pergunta", no recorded answer, a
question with at least 2 `alternativas` and a `correta` that indexes them, and
the same `jogadores` and `hostId`; its effects are exactly one `novaPergunta`
broadcast to the room, carrying the `enunciado`, the `alternativas` and
`tempo` 15 (the event has no field for the correct index), and one deadline
timer for the code, which the turn adds to the armed timers. -/
theorem iniciarRodada_inicia (st : Sistema) (socket : SocketId) (codigo : String) (sala : Sala)
    (hsala : st.estado.buscar codigo = some sala) (hhost : sala.hostId = socket) :
    ∃ s' sala' p,
      iniciarRodada st.estado socket codigo =
        (s', [.broadcast codigo (.novaPergunta p.enunciado p.alternativas 15),
              .setTimeout (.prazo codigo) 15000]) ∧
      passo st (.iniciarRodada socket codigo) =
        some (⟨s', st.timers ++ [.prazo codigo]⟩,
          [.broadcast codigo (.novaPergunta p.enunciado p.alternativas 15),
           .setTimeout (.prazo codigo) 15000]) ∧
      s'.buscar codigo = some sala' ∧
      sala'.fase = .pergunta ∧ sala'.respostasRecebidas = [] ∧
      sala'.perguntaAtual = some p ∧ 2 ≤ p.alternativas.length ∧
      p.correta < p.alternativas.length ∧
      sala'.jogadores = sala.jogadores ∧ sala'.hostId = sala.hostId := by
  obtain ⟨ref, href⟩ := Estado.buscar_eq_some.1 hsala
  have h1 : iniciarRodada st.estado socket codigo =
      (st.estado.gravar ref
        { sala with
          fase := .pergunta, perguntaAtual := some obterPerguntaExemplo,
          respostasRecebidas := [] },
        [.broadcast codigo (.novaPergunta obterPerguntaExemplo.enunciado
            obterPerguntaExemplo.alternativas 15),
         .setTimeout (.prazo codigo) 15000]) := by
    unfold iniciarRodada
    rw [href]
    simp only [hhost, ne_eq, not_true_eq_false, if_false]
  refine ⟨_, _, obterPerguntaExemplo, h1, ?_, Estado.buscar_gravar_self _ href, rfl, rfl, rfl,
    by decide, by decide, rfl, rfl⟩
  simp [passo, executarAcao, timersRestantes, h1, armados]

theorem iniciarRodada_inicia_witness :
    ∃ s' sala' p,
      iniciarRodada estadoExemplo 1 "WXYZ" =
        (s', [.broadcast "WXYZ" (.novaPergunta p.enunciado p.alternativas 15),
              .setTimeout (.prazo "WXYZ") 15000]) ∧
      passo ⟨estadoExemplo, [.prazo "WXYZ"]⟩ (.iniciarRodada 1 "WXYZ") =
        some (⟨s', [.prazo "WXYZ"] ++ [.prazo "WXYZ"]⟩,
          [.broadcast "WXYZ" (.novaPergunta p.enunciado p.alternativas 15),
           .setTimeout (.prazo "WXYZ") 15000]) ∧
      s'.buscar "WXYZ" = some sala' ∧
      sala'.fase = .pergunta ∧ sala'.respostasRecebidas = [] ∧
      sala'.perguntaAtual = some p ∧ 2 ≤ p.alternativas.length ∧
      p.correta < p.alternativas.length ∧
      sala'.jogadores = salaExemplo.jogadores ∧ sala'.hostId = salaExemplo.hostId :=
  iniciarRodada_inicia ⟨estadoExemplo, [.prazo "WXYZ"]⟩ 1 "WXYZ" salaExemplo
    (by decide) (by decide)

/-! ## A deadline with nothing to end (C12) -/

/-- C12: when the code has no room, or the fase of its room is not
"pergunta", `finalizarRodada` returns the state unchanged with no effect (no
event, no timer); and whenever `finalizarRodada` returns, running it again on
the state it left changes nothing and has no effect, so two calls in a row
leave the state and the emissions of one. -/
theorem finalizarRodada_sem_rodada (s : Estado) (codigo : String) :
    ((s.buscar codigo = none ∨ ∃ sala, s.buscar codigo = some sala ∧ sala.fase ≠ .pergunta) →
        finalizarRodada s codigo = some (s, [])) ∧
      ∀ s' efeitos, finalizarRodada s codigo = some (s', efeitos) →
        finalizarRodada s' codigo = some (s', []) := by
  have hnop : ∀ t : Estado,
      (t.buscar codigo = none ∨ ∃ sala, t.buscar codigo = some sala ∧ sala.fase ≠ .pergunta) →
        finalizarRodada t codigo = some (t, []) := by
    intro t h
    unfold finalizarRodada
    rcases h with h | ⟨sala, hsala, hf⟩
    · rw [Estado.buscar_eq_none.1 h]
    · obtain ⟨ref, href⟩ := Estado.buscar_eq_some.1 hsala
      rw [href]
      simp only [ne_eq, hf, not_false_eq_true, if_true]
  refine ⟨hnop s, ?_⟩
  intro s' efeitos h
  cases hb : s.buscar codigo with
  | none =>
    rw [hnop s (Or.inl hb)] at h
    simp only [Option.some.injEq, Prod.mk.injEq] at h
    rw [← h.1]
    exact hnop s (Or.inl hb)
  | some sala =>
    obtain ⟨ref, href⟩ := Estado.buscar_eq_some.1 hb
    by_cases hf : sala.fase = .pergunta
    · cases hp : sala.perguntaAtual with
      | none =>
        unfold finalizarRodada at h
        rw [href] at h
        simp [hf, hp] at h
      | some p =>
        rw [finalizarRodada_eq href hf hp] at h
        simp only [Option.some.injEq, Prod.mk.injEq] at h
        rw [← h.1]
        exact hnop _ (Or.inr ⟨_, Estado.buscar_gravar_self _ href, by simp⟩)
    · rw [hnop s (Or.inr ⟨sala, hb, hf⟩)] at h
      simp only [Option.some.injEq, Prod.mk.injEq] at h
      rw [← h.1]
      exact hnop s (Or.inr ⟨sala, hb, hf⟩)

theorem finalizarRodada_sem_rodada_witness :
    finalizarRodada (Sistema.apos [.criarSala 1 [0, 0, 0, 0]]).estado "AAAA" =
        some ((Sistema.apos [.criarSala 1 [0, 0, 0, 0]]).estado, []) ∧
      finalizarRodada (Sistema.apos [.criarSala 1 [0, 0, 0, 0], .iniciarRodada 1 "AAAA",
          .disparar 0]).estado "AAAA" =
        some ((Sistema.apos [.criarSala 1 [0, 0, 0, 0], .iniciarRodada 1 "AAAA",
          .disparar 0]).estado, []) :=
  ⟨(finalizarRodada_sem_rodada (Sistema.apos [.criarSala 1 [0, 0, 0, 0]]).estado "AAAA").1
      (Or.inr ⟨salaNova 1, by decide, by decide⟩),
    (finalizarRodada_sem_rodada (Sistema.apos [.criarSala 1 [0, 0, 0, 0],
        .iniciarRodada 1 "AAAA"]).estado "AAAA").2
      (Sistema.apos [.criarSala 1 [0, 0, 0, 0], .iniciarRodada 1 "AAAA", .disparar 0]).estado
      [.broadcast "AAAA" (.resultadoRodada 1 []), .setTimeout (.retorno 0 "AAAA") 5000]
      (by decide)⟩

/-- In a well-formed state `finalizarRodada` returns: it does not throw. -/
theorem finalizarRodada_retorna (s : Estado) (codigo : String) (hi : s.Integro) :
    ∃ s' efeitos, finalizarRodada s codigo = some (s', efeitos) := by
  unfold finalizarRodada
  cases hs : s.sala? codigo with
  | none => exact ⟨_, _, rfl⟩
  | some p =>
    obtain ⟨ref, sala⟩ := p
    by_cases hf : sala.fase = .pergunta
    · have hint := hi.salas_integras sala (List.getElem?_mem (Estado.sala?_eq_some.1 hs).2)
      cases hp : sala.perguntaAtual with
      | none => exact absurd hp (hint.com_pergunta hf)
      | some q => simp [hf, hp]
    · simp [hf]

/-! ## Joining without a name (C13) -/

/-- C13: for an existing room in the lobby, an `entrarSala` whose name is
omitted or is the empty string stores the participant under the non-empty
name "Jogador" with `pontos` 0; the `estadoLobby` broadcast of that join lists
the names of all participants of the room in `jogadores` order, that default
name among them. -/
theorem entrarSala_sem_nome (s : Estado) (socket : SocketId) (codigo : String)
    (nome : Option String) (sala : Sala) (hsala : s.buscar codigo = some sala)
    (hfase : sala.fase = .lobby) (hnome : nome = none ∨ nome = some "") :
    ∃ s' sala',
      entrarSala s socket codigo nome =
        (s', [.join socket codigo, .emit socket (.entrouNaSala codigo "Jogador"),
              .broadcast codigo
                (.estadoLobby ((Objeto.valores sala'.jogadores).map Jogador.nome))]) ∧
      s'.buscar codigo = some sala' ∧
      Objeto.obter sala'.jogadores socket = some { nome := "Jogador", pontos := 0 } ∧
      "Jogador" ≠ "" ∧
      "Jogador" ∈ (Objeto.valores sala'.jogadores).map Jogador.nome := by
  obtain ⟨ref, href⟩ := Estado.buscar_eq_some.1 hsala
  have hn : nomeOuPadrao nome = "Jogador" := by
    rcases hnome with rfl | rfl <;> rfl
  refine ⟨s.gravar ref
      { sala with
        jogadores := Objeto.definir sala.jogadores socket { nome := "Jogador", pontos := 0 } },
    _, ?_, Estado.buscar_gravar_self _ href, Objeto.obter_definir_self _ _ _, by decide, ?_⟩
  · unfold entrarSala
    rw [href]
    simp only [hfase, ne_eq, not_true_eq_false, if_false, hn, nomes]
  · simp only [Objeto.valores, List.map_map, List.mem_map, Function.comp]
    refine ⟨(socket, { nome := "Jogador", pontos := 0 }), ?_, rfl⟩
    generalize sala.jogadores = o
    induction o with
    | nil => simp [Objeto.definir]
    | cons e r ih =>
      obtain ⟨k, v⟩ := e
      by_cases hk : k = socket
      · simp [Objeto.definir, hk]
      · simp only [Objeto.definir, hk, if_false, List.mem_cons]
        exact Or.inr ih

theorem entrarSala_sem_nome_witness :
    ∃ s' sala',
      entrarSala (Sistema.apos [.criarSala 1 [0, 0, 0, 0],
          .entrarSala 2 "AAAA" (some "Bea")]).estado 3 "AAAA" none =
        (s', [.join 3 "AAAA", .emit 3 (.entrouNaSala "AAAA" "Jogador"),
              .broadcast "AAAA"
                (.estadoLobby ((Objeto.valores sala'.jogadores).map Jogador.nome))]) ∧
      s'.buscar "AAAA" = some sala' ∧
      Objeto.obter sala'.jogadores 3 = some { nome := "Jogador", pontos := 0 } ∧
      "Jogador" ≠ "" ∧
      "Jogador" ∈ (Objeto.valores sala'.jogadores).map Jogador.nome :=
  entrarSala_sem_nome
    (Sistema.apos [.criarSala 1 [0, 0, 0, 0], .entrarSala 2 "AAAA" (some "Bea")]).estado
    3 "AAAA" none
    { hostId := 1, jogadores := [(2, ⟨"Bea", 0⟩)], fase := .lobby, perguntaAtual := none,
      respostasRecebidas := [] }
    (by decide) (by decide) (Or.inl rfl)

/-! ## What `responder` touches (C16) -/

/-- C16: when the code has no room, the fase of the room is not "pergunta", or
the sender is no key of `jogadores`, `responder` returns the state unchanged
with no effect. In every case its effects are none or the single event
`respostaRecebida` sent to the sender (never a broadcast), `salas` is
unchanged, and every room object keeps its `hostId`, `jogadores` (names and
`pontos`), `fase`, `perguntaAtual` and every entry of `respostasRecebidas`
other than the sender's; a room object not stored under the code is
unchanged altogether. -/
theorem responder_so_a_resposta (s : Estado) (socket : SocketId) (codigo : String)
    (i : Numero) :
    ((s.buscar codigo = none ∨
        ∃ sala, s.buscar codigo = some sala ∧
          (sala.fase ≠ .pergunta ∨ Objeto.obter sala.jogadores socket = none)) →
        responder s socket codigo i = (s, [])) ∧
      ((responder s socket codigo i).2 = [] ∨
        (responder s socket codigo i).2 = [.emit socket .respostaRecebida]) ∧
      (responder s socket codigo i).1.salas = s.salas ∧
      (responder s socket codigo i).1.objetos.length = s.objetos.length ∧
      ∀ (r : Nat) (x : Sala), s.objetos[r]? = some x →
        ∃ x', (responder s socket codigo i).1.objetos[r]? = some x' ∧
          x'.hostId = x.hostId ∧ x'.jogadores = x.jogadores ∧ x'.fase = x.fase ∧
          x'.perguntaAtual = x.perguntaAtual ∧
          (∀ id, id ≠ socket →
            Objeto.obter x'.respostasRecebidas id = Objeto.obter x.respostasRecebidas id) ∧
          (Objeto.obter s.salas codigo ≠ some r → x' = x) := by
  refine ⟨?_, ?_⟩
  · intro h
    unfold responder
    rcases h with h | ⟨sala, hsala, hg⟩
    · rw [Estado.buscar_eq_none.1 h]
    · obtain ⟨ref, href⟩ := Estado.buscar_eq_some.1 hsala
      rw [href]
      rcases hg with hf | hj
      · simp only [ne_eq, hf, not_false_eq_true, if_true]
      · by_cases hf : sala.fase = .pergunta <;> simp [hf, hj]
  · rcases responder_cases ⟨s, []⟩ socket codigo i with hc | ⟨ref, sala, sala', hget, hm, hc⟩
    · simp only at hc
      rw [hc]
      exact ⟨Or.inl rfl, rfl, rfl, fun r x hx => ⟨x, hx, rfl, rfl, rfl, rfl, fun _ _ => rfl,
        fun _ => rfl⟩⟩
    · simp only at hc hget
      rw [hc]
      refine ⟨Or.inr rfl, rfl, by simp, ?_⟩
      intro r x hx
      cases hm with
      | respondeu _ _ _ _ _ hcod _ _ _ _ =>
        simp only at hcod
        by_cases hr : ref = r
        · subst hr
          rw [hget] at hx
          cases hx
          exact ⟨_, Estado.gravar_get_self _ hget, rfl, rfl, rfl, rfl,
            fun id hid => Objeto.obter_definir_ne _ _ hid, fun hne => absurd hcod hne⟩
        · exact ⟨x, by rw [Estado.gravar_get_ne _ _ hr]; exact hx, rfl, rfl, rfl, rfl,
            fun _ _ => rfl, fun _ => rfl⟩

theorem responder_so_a_resposta_witness :
    responder estadoExemplo 9 "WXYZ" (.finito 1 0) = (estadoExemplo, []) :=
  (responder_so_a_resposta estadoExemplo 9 "WXYZ" (.finito 1 0)).1
    (Or.inr ⟨salaExemplo, by decide, Or.inr (by decide)⟩)

/-! ## The check on the answer (C15) -/

theorem passo_sem_nan {st st' : Sistema} {a : Acao} {efeitos : List Efeito}
    (hinv : ∀ sala, sala ∈ st.estado.objetos → ∀ id v,
      Objeto.obter sala.respostasRecebidas id = some v → v.isNaN = false)
    (h : passo st a = some (st', efeitos)) :
    ∀ sala, sala ∈ st'.estado.objetos → ∀ id v,
      Objeto.obter sala.respostasRecebidas id = some v → v.isNaN = false := by
  intro y hy id v hv
  rcases passo_cases h with he | ⟨socket, sorteados, codigo', _, _, he⟩ | ⟨socket, _, he⟩ |
    ⟨ref, x, x', hget, hm, he⟩
  · rw [he] at hy; exact hinv y hy id v hv
  · rw [he] at hy
    simp only [List.mem_append, List.mem_singleton] at hy
    rcases hy with hy | rfl
    · exact hinv y hy id v hv
    · simp [salaNova, Objeto.obter] at hv
  · rw [he] at hy
    obtain ⟨hlen, _, hobj⟩ := disconnect_estado st.estado socket
    obtain ⟨n, hn⟩ := List.getElem?_of_mem hy
    have hlt : n < st.estado.objetos.length := hlen ▸ getElem?_lt hn
    have hold : st.estado.objetos[n]? = some st.estado.objetos[n] :=
      List.getElem?_eq_getElem hlt
    rcases hobj n _ hold with h1 | h1
    · rw [h1] at hn; cases hn
      exact hinv _ (List.getElem_mem hlt) id v hv
    · rw [h1] at hn; cases hn
      exact hinv _ (List.getElem_mem hlt) id v hv
  · rw [he] at hy
    rcases List.mem_or_eq_of_mem_set hy with hy | rfl
    · exact hinv y hy id v hv
    · have hx := hinv x (List.getElem?_mem hget)
      cases hm with
      | entrou s c nome _ _ _ _ => exact hx id v hv
      | iniciou s c _ _ _ _ => simp [Objeto.obter] at hv
      | respondeu s c i _ _ _ _ _ hnan _ =>
        simp only at hv
        by_cases hid : id = s
        · subst hid
          rw [Objeto.obter_definir_self] at hv
          cases hv; exact hnan
        · rw [Objeto.obter_definir_ne _ _ hid] at hv
          exact hx id v hv
      | finalizou k c _ _ p _ _ _ _ => exact hx id v hv
      | voltou k c _ _ _ => exact hx id v hv

theorem alcancavel_sem_nan {st : Sistema} (halc : Alcancavel st) :
    ∀ sala, sala ∈ st.estado.objetos → ∀ id v,
      Objeto.obter sala.respostasRecebidas id = some v → v.isNaN = false := by
  induction halc with
  | inicial =>
    intro sala hs
    simp [Sistema.inicial, Estado.vazio] at hs
  | passo _ hp ih => exact passo_sem_nan ih hp

/-- C15 as the code has it: the check of line 125 is `Number.isNaN`. In every
reachable state a `responder` whose `Number(indice)` is NaN leaves the state
unchanged with no effect, so an answer is recorded only for a number that is
not NaN, and every value stored in `respostasRecebidas` is a number that is
not NaN (an integer or not). -/
theorem responder_descarta_nan (st : Sistema) (socket : SocketId) (codigo : String)
    (i : Numero) (halc : Alcancavel st) :
    (i.isNaN = true → responder st.estado socket codigo i = (st.estado, [])) ∧
      (responder st.estado socket codigo i ≠ (st.estado, []) → i.isNaN = false) ∧
      ∀ sala, sala ∈ st.estado.objetos → ∀ id v,
        Objeto.obter sala.respostasRecebidas id = some v → v.isNaN = false := by
  have h1 : i.isNaN = true → responder st.estado socket codigo i = (st.estado, []) := by
    intro hn
    rcases responder_cases st socket codigo i with hc | ⟨ref, sala, sala', _, hm, _⟩
    · exact hc
    · cases hm with
      | respondeu _ _ _ _ _ _ _ _ hnan _ => rw [hn] at hnan; cases hnan
  refine ⟨h1, ?_, ?_⟩
  · intro hne
    cases hn : i.isNaN with
    | false => rfl
    | true => exact absurd (h1 hn) hne
  · exact alcancavel_sem_nan halc

theorem responder_descarta_nan_witness :
    (Numero.nan.isNaN = true →
        responder (Sistema.apos [.criarSala 1 [0, 0, 0, 0], .entrarSala 2 "AAAA" (some "Bea"),
          .iniciarRodada 1 "AAAA"]).estado 2 "AAAA" .nan =
          ((Sistema.apos [.criarSala 1 [0, 0, 0, 0], .entrarSala 2 "AAAA" (some "Bea"),
            .iniciarRodada 1 "AAAA"]).estado, [])) ∧
      Numero.nan.isNaN = true :=
  ⟨(responder_descarta_nan
      (Sistema.apos [.criarSala 1 [0, 0, 0, 0], .entrarSala 2 "AAAA" (some "Bea"),
        .iniciarRodada 1 "AAAA"]) 2 "AAAA" .nan (alcancavel_apos _)).1, by decide⟩

/-- C15, counterexample: in a round of a room where 2 is a participant with no
answer yet, a `responder` of 2 with `indice` 1.5 (`Number(1.5)` is 3 / 2 ^ 1,
not an integer) is recorded in `respostasRecebidas` and acknowledged. -/
theorem responder_aceita_fracao :
    Numero.inteiro (.finito 3 1) = false ∧
      (passo (Sistema.apos [.criarSala 1 [0, 0, 0, 0], .entrarSala 2 "AAAA" (some "Bea"),
        .iniciarRodada 1 "AAAA"]) (.responder 2 "AAAA" (.finito 3 1))).map
          (fun r => (respostaDe r.1.estado 0 2, r.2)) =
        some (some (.finito 3 1), [.emit 2 .respostaRecebida]) := by
  decide

/-! ## Rooms are independent (C19) -/

theorem buscar_gravar_outra {s : Estado} (hi : s.Integro) {codigo c : String} {ref : Nat}
    (x : Sala) (href : Objeto.obter s.salas codigo = some ref) (hc : c ≠ codigo) :
    (s.gravar ref x).buscar c = s.buscar c := by
  unfold Estado.buscar Estado.sala?
  simp only [Estado.gravar_salas]
  cases hr : Objeto.obter s.salas c with
  | none => rfl
  | some r =>
    have hne : ref ≠ r := by
      rintro rfl
      exact hc (hi.refs_distintas c codigo ref hr href)
    simp only [Estado.gravar_get_ne _ _ hne]

theorem entrarSala_transmite (s : Estado) (socket : SocketId) (codigo : String)
    (nome : Option String) (c : String) (ev : Evento)
    (h : Efeito.broadcast c ev ∈ (entrarSala s socket codigo nome).2) : c = codigo := by
  unfold entrarSala at h
  split at h
  · simp at h
  · split at h
    · simp at h
    · simp at h; exact h.1

theorem iniciarRodada_transmite (s : Estado) (socket : SocketId) (codigo : String)
    (c : String) (ev : Evento)
    (h : Efeito.broadcast c ev ∈ (iniciarRodada s socket codigo).2) : c = codigo := by
  unfold iniciarRodada at h
  split at h
  · simp at h
  · split at h
    · simp at h
    · simp at h; exact h.1

theorem responder_transmite (s : Estado) (socket : SocketId) (codigo : String) (i : Numero)
    (c : String) (ev : Evento)
    (h : Efeito.broadcast c ev ∈ (responder s socket codigo i).2) : False := by
  rcases responder_cases ⟨s, []⟩ socket codigo i with h1 | ⟨_, _, _, _, _, h1⟩
  · simp only at h1
    rw [h1] at h
    simp at h
  · simp only at h1
    rw [h1] at h
    simp at h

theorem finalizarRodada_transmite (s s' : Estado) (codigo : String) (efeitos : List Efeito)
    (hf : finalizarRodada s codigo = some (s', efeitos)) (c : String) (ev : Evento)
    (h : Efeito.broadcast c ev ∈ efeitos) : c = codigo := by
  unfold finalizarRodada at hf
  split at hf
  · simp only [Option.some.injEq, Prod.mk.injEq] at hf
    rw [← hf.2] at h; simp at h
  · split at hf
    · simp only [Option.some.injEq, Prod.mk.injEq] at hf
      rw [← hf.2] at h; simp at h
    · split at hf
      · cases hf
      · simp only [Option.some.injEq, Prod.mk.injEq] at hf
        rw [← hf.2] at h
        simp at h
        exact h.1

/-- C19: in a well-formed state, as every reachable state is, an `entrarSala`,
`iniciarRodada`, `responder` or `finalizarRodada` carrying the code `codigo`
leaves the lookup of every other code as it was, room and all, and every event
it broadcasts is addressed to `codigo`; `criarSala` leaves every room that was
in the registry in place, unchanged. -/
theorem acao_so_na_sua_sala (s : Estado) (socket : SocketId) (codigo : String)
    (nome : Option String) (i : Numero) (hi : s.Integro) :
    (∀ s' efeitos,
        (entrarSala s socket codigo nome = (s', efeitos) ∨
          iniciarRodada s socket codigo = (s', efeitos) ∨
          responder s socket codigo i = (s', efeitos) ∨
          finalizarRodada s codigo = some (s', efeitos)) →
        (∀ c, c ≠ codigo → s'.buscar c = s.buscar c) ∧
          ∀ c ev, Efeito.broadcast c ev ∈ efeitos → c = codigo) ∧
      ∀ sorteados s' efeitos, criarSala s socket sorteados = some (s', efeitos) →
        ∀ c sala, s.buscar c = some sala → s'.buscar c = some sala := by
  have hmuda : ∀ (st : Sistema) (a : Acao) (ref : Nat) (x x' : Sala) (k : Nat),
      st.estado = s → (∀ c, st.timers[k]? = some (.prazo c) → c = codigo) →
      (a = .entrarSala socket codigo nome ∨ a = .iniciarRodada socket codigo ∨
        a = .responder socket codigo i ∨ a = .disparar k) →
      (∀ r c, st.timers[k]? ≠ some (.retorno r c)) →
      Muda st a ref x x' → Objeto.obter s.salas codigo = some ref := by
    intro st a ref x x' k hst hk ha hret hm
    cases hm with
    | entrou _ _ _ _ _ hc _ =>
      rcases ha with ha | ha | ha | ha <;> cases ha
      rw [← hst]; exact hc
    | iniciou _ _ _ _ hc _ =>
      rcases ha with ha | ha | ha | ha <;> cases ha
      rw [← hst]; exact hc
    | respondeu _ _ _ _ _ hc _ _ _ _ =>
      rcases ha with ha | ha | ha | ha <;> cases ha
      rw [← hst]; exact hc
    | finalizou _ c _ _ _ ht hc _ _ =>
      rcases ha with ha | ha | ha | ha <;> cases ha
      rw [← hst, ← hk c ht]; exact hc
    | voltou _ c _ _ ht =>
      rcases ha with ha | ha | ha | ha <;> cases ha
      exact absurd ht (hret _ _)
  refine ⟨?_, ?_⟩
  · intro s' efeitos h
    rcases h with h | h | h | h
    · refine ⟨?_, fun c ev hm => entrarSala_transmite s socket codigo nome c ev (by rw [h]; exact hm)⟩
      intro c hc
      have h1 : (entrarSala s socket codigo nome).1 = s' := by rw [h]
      rcases entrarSala_cases ⟨s, []⟩ socket codigo nome with he | ⟨ref, x, x', _, hm, he⟩
      · simp only at he; rw [← h1, he]
      · simp only at he
        rw [← h1, he]
        exact buscar_gravar_outra hi _
          (hmuda ⟨s, []⟩ _ ref x x' 0 rfl (by simp) (Or.inl rfl) (by simp) hm) hc
    · refine ⟨?_, fun c ev hm => iniciarRodada_transmite s socket codigo c ev (by rw [h]; exact hm)⟩
      intro c hc
      have h1 : (iniciarRodada s socket codigo).1 = s' := by rw [h]
      rcases iniciarRodada_cases ⟨s, []⟩ socket codigo with he | ⟨ref, x, x', _, hm, he⟩
      · simp only at he; rw [← h1, he]
      · simp only at he
        rw [← h1, he]
        exact buscar_gravar_outra hi _
          (hmuda ⟨s, []⟩ _ ref x x' 0 rfl (by simp) (Or.inr (Or.inl rfl)) (by simp) hm) hc
    · refine ⟨?_, fun c ev hm =>
        (responder_transmite s socket codigo i c ev (by rw [h]; exact hm)).elim⟩
      intro c hc
      have h1 : (responder s socket codigo i).1 = s' := by rw [h]
      rcases responder_cases ⟨s, []⟩ socket codigo i with he | ⟨ref, x, x', _, hm, he⟩
      · simp only at he; rw [← h1, he]
      · simp only at he
        rw [← h1, he]
        exact buscar_gravar_outra hi _
          (hmuda ⟨s, []⟩ _ ref x x' 0 rfl (by simp) (Or.inr (Or.inr (Or.inl rfl))) (by simp) hm)
          hc
    · refine ⟨?_, fun c ev hm => finalizarRodada_transmite s s' codigo efeitos h c ev hm⟩
      intro c hc
      rcases finalizarRodada_cases ⟨s, [.prazo codigo]⟩ 0 codigo rfl s' efeitos h with
        he | ⟨ref, x, x', _, hm, he⟩
      · rw [he.1]
      · simp only at he
        rw [he]
        exact buscar_gravar_outra hi _
          (hmuda ⟨s, [.prazo codigo]⟩ _ ref x x' 0 rfl
            (by intro c' hc'; simp at hc'; exact hc'.symm)
            (Or.inr (Or.inr (Or.inr rfl))) (by simp) hm) hc
  · intro sorteados s' efeitos h c sala hc
    unfold criarSala at h
    cases hg : gerarCodigoSala s.salas sorteados with
    | none => rw [hg] at h; cases h
    | some cod =>
      rw [hg] at h
      simp only [Option.some.injEq, Prod.mk.injEq] at h
      rw [← h.1]
      exact buscar_criarSala _ (gerarCodigoSala_some _ _ _ hg).2 hc

theorem acao_so_na_sua_sala_witness :
    (entrarSala (Sistema.apos [.criarSala 1 [0, 0, 0, 0], .criarSala 2 [1, 1, 1, 1],
        .entrarSala 3 "BBBB" none]).estado 3 "AAAA" none).1.buscar "BBBB" =
      (Sistema.apos [.criarSala 1 [0, 0, 0, 0], .criarSala 2 [1, 1, 1, 1],
        .entrarSala 3 "BBBB" none]).estado.buscar "BBBB" :=
  ((acao_so_na_sua_sala
      (Sistema.apos [.criarSala 1 [0, 0, 0, 0], .criarSala 2 [1, 1, 1, 1],
        .entrarSala 3 "BBBB" none]).estado 3 "AAAA" none (.finito 1 0)
      (alcancavel_integro (alcancavel_apos _))).1 _ _ (Or.inl rfl)).1 "BBBB" (by decide)

/-! ## The `disconnect` loop, room by room -/

/-- One iteration of the `disconnect` loop, with its effects. -/
theorem disconnectSala_eq (socket : SocketId) (acc : Estado × List Efeito) (codigo : String) :
    (acc.1.sala? codigo = none ∧ disconnectSala socket acc codigo = acc) ∨
      (∃ ref sala, acc.1.sala? codigo = some (ref, sala) ∧ sala.hostId = socket ∧
        disconnectSala socket acc codigo =
          ({ acc.1 with salas := Objeto.apagar acc.1.salas codigo },
            acc.2 ++ [.broadcast codigo (.erro "Host saiu. Sala encerrada.")]
              ++ (Objeto.chaves sala.jogadores).map (fun idJog => Efeito.leave idJog codigo))) ∨
      (∃ ref sala, acc.1.sala? codigo = some (ref, sala) ∧ sala.hostId ≠ socket ∧
        (Objeto.obter sala.jogadores socket).isSome ∧
        disconnectSala socket acc codigo =
          (acc.1.gravar ref (semJogador socket sala),
            acc.2 ++ [.broadcast codigo (.estadoLobby (nomes (semJogador socket sala)))])) ∨
      (∃ ref sala, acc.1.sala? codigo = some (ref, sala) ∧ sala.hostId ≠ socket ∧
        Objeto.obter sala.jogadores socket = none ∧ disconnectSala socket acc codigo = acc) := by
  unfold disconnectSala
  cases h : acc.1.sala? codigo with
  | none => exact Or.inl ⟨rfl, rfl⟩
  | some p =>
    obtain ⟨ref, sala⟩ := p
    by_cases hh : sala.hostId = socket
    · exact Or.inr (Or.inl ⟨ref, sala, rfl, hh, by simp [hh]⟩)
    · cases hj : Objeto.obter sala.jogadores socket with
      | some j =>
        exact Or.inr (Or.inr (Or.inl ⟨ref, sala, rfl, hh, by simp [hj], by simp [hh, hj, semJogador]⟩))
      | none => exact Or.inr (Or.inr (Or.inr ⟨ref, sala, rfl, hh, hj, by simp [hh, hj]⟩))

theorem filter_transmiteA_leave (codigo k : String) (ids : List SocketId) :
    (ids.map (fun idJog => Efeito.leave idJog k)).filter (Efeito.transmiteA codigo) = [] := by
  induction ids with
  | nil => rfl
  | cons a r ih => simp [Efeito.transmiteA]

/-- An iteration for another code keeps what holds of the room under
`codigo`. -/
theorem NoLaco.outra {socket : SocketId} {codigo : String} {ref : Nat} {y : Sala}
    {tr : List Efeito} {acc : Estado × List Efeito} (h : NoLaco codigo ref y tr acc)
    {k : String} (hk : k ≠ codigo) : NoLaco codigo ref y tr (disconnectSala socket acc k) := by
  rcases disconnectSala_eq socket acc k with ⟨_, he⟩ | ⟨r, x, _, _, he⟩ |
    ⟨r, x, hx, _, _, he⟩ | ⟨r, x, _, _, _, he⟩
  · rw [he]; exact h
  · rw [he]
    refine ⟨?_, ?_, h.objeto, ?_⟩
    · intro c c' r' hc hc'
      exact h.distintas c c' r' (obter_apagar_some hc) (obter_apagar_some hc')
    · simp only
      rw [Objeto.obter_apagar_ne _ (fun e => hk e.symm)]
      exact h.ref_de
    · simp only [List.filter_append, filter_transmiteA_leave, List.append_nil]
      rw [h.efeitos]
      simp [Efeito.transmiteA, hk]
  · rw [he]
    have hne : r ≠ ref := by
      rintro rfl
      exact hk (h.distintas k codigo r (Estado.sala?_eq_some.1 hx).1 h.ref_de)
    refine ⟨?_, ?_, ?_, ?_⟩
    · intro c c' r' hc hc'
      exact h.distintas c c' r' hc hc'
    · exact h.ref_de
    · simp only
      rw [Estado.gravar_get_ne _ _ hne]
      exact h.objeto
    · simp only [List.filter_append]
      rw [h.efeitos]
      simp [Efeito.transmiteA, hk]
  · rw [he]; exact h

/-- The iteration for `codigo`, on a room the socket does not host, deletes
the socket from `jogadores` and broadcasts the new name list when the socket
was a participant. -/
theorem NoLaco.propria {socket : SocketId} {codigo : String} {ref : Nat} {sala : Sala}
    {acc : Estado × List Efeito} (h : NoLaco codigo ref sala [] acc)
    (hh : sala.hostId ≠ socket) :
    NoLaco codigo ref (semJogador socket sala) (avisoDeSaida socket codigo sala)
      (disconnectSala socket acc codigo) := by
  have hs : acc.1.sala? codigo = some (ref, sala) :=
    Estado.sala?_eq_some.2 ⟨h.ref_de, h.objeto⟩
  rcases disconnectSala_eq socket acc codigo with ⟨hn, _⟩ | ⟨r, x, hx, hxh, _⟩ |
    ⟨r, x, hx, _, hj, he⟩ | ⟨r, x, hx, _, hj, he⟩
  · rw [hs] at hn; cases hn
  · rw [hs] at hx; cases hx; exact absurd hxh hh
  · rw [hs] at hx; cases hx
    rw [he]
    refine ⟨h.distintas, h.ref_de, Estado.gravar_get_self _ h.objeto, ?_⟩
    simp only [List.filter_append]
    rw [h.efeitos]
    simp [Efeito.transmiteA, avisoDeSaida, hj]
  · rw [hs] at hx; cases hx
    rw [he]
    refine ⟨h.distintas, h.ref_de, ?_, ?_⟩
    · rw [semJogador_of_none hj]; exact h.objeto
    · rw [h.efeitos]; simp [avisoDeSaida, hj]

/-- Once the socket is out of `jogadores`, the iteration for `codigo` does
nothing more. -/
theorem NoLaco.repetida {socket : SocketId} {codigo : String} {ref : Nat} {sala : Sala}
    {tr : List Efeito} {acc : Estado × List Efeito}
    (h : NoLaco codigo ref (semJogador socket sala) tr acc) (hh : sala.hostId ≠ socket) :
    NoLaco codigo ref (semJogador socket sala) tr (disconnectSala socket acc codigo) := by
  have hs : acc.1.sala? codigo = some (ref, semJogador socket sala) :=
    Estado.sala?_eq_some.2 ⟨h.ref_de, h.objeto⟩
  rcases disconnectSala_eq socket acc codigo with ⟨hn, _⟩ | ⟨r, x, hx, hxh, _⟩ |
    ⟨r, x, hx, _, hj, he⟩ | ⟨r, x, hx, _, hj, he⟩
  · rw [hs] at hn; cases hn
  · rw [hs] at hx; cases hx; exact absurd hxh hh
  · rw [hs] at hx; cases hx
    simp only [semJogador] at hj
    rw [Objeto.obter_apagar_self] at hj
    cases hj
  · rw [he]; exact h

theorem disconnect_laco {socket : SocketId} {codigo : String} {ref : Nat} {sala : Sala}
    (hh : sala.hostId ≠ socket) :
    ∀ (ks : List String) (acc : Estado × List Efeito),
      ((codigo ∈ ks ∧ NoLaco codigo ref sala [] acc) ∨
        NoLaco codigo ref (semJogador socket sala) (avisoDeSaida socket codigo sala) acc) →
      NoLaco codigo ref (semJogador socket sala) (avisoDeSaida socket codigo sala)
        (ks.foldl (disconnectSala socket) acc) := by
  intro ks
  induction ks with
  | nil =>
    intro acc h
    rcases h with ⟨hm, _⟩ | h
    · cases hm
    · exact h
  | cons k resto ih =>
    intro acc h
    apply ih
    by_cases hk : k = codigo
    · subst hk
      rcases h with ⟨_, h⟩ | h
      · exact Or.inr (h.propria hh)
      · exact Or.inr (h.repetida hh)
    · rcases h with ⟨hm, h⟩ | h
      · rcases List.mem_cons.1 hm with rfl | hm
        · exact absurd rfl hk
        · exact Or.inl ⟨hm, h.outra hk⟩
      · exact Or.inr (h.outra hk)

/-- In a well-formed state the `disconnect` handler leaves a room the socket
does not host under its code, without the socket among its `jogadores`, and
broadcasts to its code the new name list if the socket was a participant and
nothing otherwise. -/
theorem disconnect_sala (s : Estado) (socket : SocketId) (codigo : String) (ref : Nat)
    (sala : Sala) (hi : s.Integro) (hs : s.sala? codigo = some (ref, sala))
    (hh : sala.hostId ≠ socket) :
    (disconnect s socket).1.sala? codigo = some (ref, semJogador socket sala) ∧
      (disconnect s socket).2.filter (Efeito.transmiteA codigo) =
        avisoDeSaida socket codigo sala := by
  have hs' := Estado.sala?_eq_some.1 hs
  have h0 : NoLaco codigo ref sala [] (s, []) := ⟨hi.refs_distintas, hs'.1, hs'.2, rfl⟩
  have hmem : codigo ∈ Objeto.chaves s.salas := by
    rw [← Objeto.obter_isSome_iff, hs'.1]; rfl
  have h := disconnect_laco hh (Objeto.chaves s.salas) (s, []) (Or.inl ⟨hmem, h0⟩)
  exact ⟨Estado.sala?_eq_some.2 ⟨h.ref_de, h.objeto⟩, h.efeitos⟩

/-! ## A participant leaves (C18) -/

/-- C18: in a well-formed state, as every reachable state is, for a room in
any fase and an identity that is a participant and not the host of it, the
`disconnect` handler keeps the room in the registry, deletes exactly that
identity from `jogadores` (the other entries stay, in order, with their `nome`
and `pontos`), leaves `fase`, `hostId` and `perguntaAtual` as they were, and
broadcasts to the room exactly one event, an `estadoLobby` with the names of
the remaining participants in `jogadores` order. -/
theorem disconnect_participante (s : Estado) (socket : SocketId) (codigo : String)
    (sala : Sala) (j : Jogador) (hi : s.Integro) (hsala : s.buscar codigo = some sala)
    (hhost : sala.hostId ≠ socket) (hpart : Objeto.obter sala.jogadores socket = some j) :
    ∃ sala', (disconnect s socket).1.buscar codigo = some sala' ∧
      sala'.jogadores = sala.jogadores.filter (fun p => decide (p.1 ≠ socket)) ∧
      Objeto.obter sala'.jogadores socket = none ∧
      (∀ id, id ≠ socket →
        Objeto.obter sala'.jogadores id = Objeto.obter sala.jogadores id) ∧
      sala'.fase = sala.fase ∧ sala'.hostId = sala.hostId ∧
      sala'.perguntaAtual = sala.perguntaAtual ∧
      (disconnect s socket).2.filter (Efeito.transmiteA codigo) =
        [.broadcast codigo (.estadoLobby ((Objeto.valores sala'.jogadores).map Jogador.nome))] := by
  obtain ⟨ref, href⟩ := Estado.buscar_eq_some.1 hsala
  obtain ⟨h1, h2⟩ := disconnect_sala s socket codigo ref sala hi href hhost
  refine ⟨semJogador socket sala, Estado.buscar_eq_some.2 ⟨ref, h1⟩, rfl,
    Objeto.obter_apagar_self _ _, fun id hid => Objeto.obter_apagar_ne _ hid, rfl, rfl, rfl, ?_⟩
  rw [h2]
  simp [avisoDeSaida, hpart, nomes]

theorem disconnect_participante_witness :
    ∃ sala',
      (disconnect (Sistema.apos [.criarSala 1 [0, 0, 0, 0], .entrarSala 2 "AAAA" (some "Ana"),
        .entrarSala 3 "AAAA" (some "Bea"), .iniciarRodada 1 "AAAA"]).estado 2).1.buscar "AAAA" =
        some sala' ∧
      sala'.jogadores =
        [((2 : SocketId), (⟨"Ana", 0⟩ : Jogador)), (3, ⟨"Bea", 0⟩)].filter
          (fun p => decide (p.1 ≠ 2)) ∧
      Objeto.obter sala'.jogadores 2 = none ∧
      (∀ id, id ≠ 2 →
        Objeto.obter sala'.jogadores id =
          Objeto.obter [((2 : SocketId), (⟨"Ana", 0⟩ : Jogador)), (3, ⟨"Bea", 0⟩)] id) ∧
      sala'.fase = .pergunta ∧ sala'.hostId = 1 ∧
      sala'.perguntaAtual = some obterPerguntaExemplo ∧
      (disconnect (Sistema.apos [.criarSala 1 [0, 0, 0, 0], .entrarSala 2 "AAAA" (some "Ana"),
        .entrarSala 3 "AAAA" (some "Bea"), .iniciarRodada 1 "AAAA"]).estado 2).2.filter
          (Efeito.transmiteA "AAAA") =
        [.broadcast "AAAA"
          (.estadoLobby ((Objeto.valores sala'.jogadores).map Jogador.nome))] :=
  disconnect_participante
    (Sistema.apos [.criarSala 1 [0, 0, 0, 0], .entrarSala 2 "AAAA" (some "Ana"),
      .entrarSala 3 "AAAA" (some "Bea"), .iniciarRodada 1 "AAAA"]).estado 2 "AAAA"
    { hostId := 1, jogadores := [(2, ⟨"Ana", 0⟩), (3, ⟨"Bea", 0⟩)], fase := .pergunta,
      perguntaAtual := some obterPerguntaExemplo, respostasRecebidas := [] }
    ⟨"Ana", 0⟩ (alcancavel_integro (alcancavel_apos _)) (by decide) (by decide) (by decide)

/-! ## After a connection is lost (C20) -/

/-- C20: in a well-formed state, as every reachable state is, after the
`disconnect` handler has run for an identity, no room left in the registry has
that identity as `hostId` or as a key of `jogadores`, whatever the number of
rooms it hosted or had joined; and a room it neither hosted nor was a
participant of is still in the registry, unchanged. -/
theorem disconnect_limpa (s : Estado) (x : SocketId) (hi : s.Integro) :
    (∀ codigo sala', (disconnect s x).1.buscar codigo = some sala' →
        sala'.hostId ≠ x ∧ Objeto.obter sala'.jogadores x = none) ∧
      ∀ codigo sala, s.buscar codigo = some sala → sala.hostId ≠ x →
        Objeto.obter sala.jogadores x = none →
        (disconnect s x).1.buscar codigo = some sala := by
  refine ⟨?_, ?_⟩
  · intro codigo sala' hb
    obtain ⟨r, hr⟩ := Estado.buscar_eq_some.1 hb
    have hhost := disconnect_sem_host s x codigo r sala' hr
    refine ⟨hhost, ?_⟩
    obtain ⟨hlen, hsalas, hobj⟩ := disconnect_estado s x
    have hr' := Estado.sala?_eq_some.1 hr
    have hlt : r < s.objetos.length := hlen ▸ getElem?_lt hr'.2
    have hold : s.objetos[r]? = some s.objetos[r] := List.getElem?_eq_getElem hlt
    have hs : s.sala? codigo = some (r, s.objetos[r]) :=
      Estado.sala?_eq_some.2 ⟨hsalas codigo r hr'.1, hold⟩
    have hh0 : (s.objetos[r]).hostId ≠ x := by
      rcases hobj r _ hold with h1 | h1
      · rw [h1] at hr'; obtain ⟨_, h2⟩ := hr'; cases h2; exact hhost
      · rw [h1] at hr'; obtain ⟨_, h2⟩ := hr'; cases h2; exact hhost
    have h1 := (disconnect_sala s x codigo r _ hi hs hh0).1
    rw [hr] at h1
    cases h1
    exact Objeto.obter_apagar_self _ _
  · intro codigo sala hb hh hj
    obtain ⟨r, hr⟩ := Estado.buscar_eq_some.1 hb
    have h1 := (disconnect_sala s x codigo r sala hi hr hh).1
    rw [semJogador_of_none hj] at h1
    exact Estado.buscar_eq_some.2 ⟨r, h1⟩

theorem disconnect_limpa_witness :
    (disconnect (Sistema.apos [.criarSala 1 [0, 0, 0, 0], .criarSala 1 [1, 1, 1, 1],
        .criarSala 2 [2, 2, 2, 2], .criarSala 3 [3, 3, 3, 3], .entrarSala 1 "CCCC" none,
        .entrarSala 4 "DDDD" none]).estado 1).1.buscar "DDDD" =
      some { hostId := 3, jogadores := [(4, ⟨"Jogador", 0⟩)], fase := .lobby,
             perguntaAtual := none, respostasRecebidas := [] } :=
  (disconnect_limpa
      (Sistema.apos [.criarSala 1 [0, 0, 0, 0], .criarSala 1 [1, 1, 1, 1],
        .criarSala 2 [2, 2, 2, 2], .criarSala 3 [3, 3, 3, 3], .entrarSala 1 "CCCC" none,
        .entrarSala 4 "DDDD" none]).estado 1
      (alcancavel_integro (alcancavel_apos _))).2 "DDDD" _ (by decide) (by decide) (by decide)

/-! ## A whole round (C14) -/

/-- C14: from the empty registry, host `a` runs `criarSala` and obtains the
code `c`, `b` runs `entrarSala(c, "Bea")`, `a` runs `iniciarRodada(c)`, `b`
runs `responder(c, 1)` and the deadline timer fires. The run completes; the
`responder` has the single effect `respostaRecebida` sent to `b`; the firing
broadcasts to `c` a `resultadoRodada` with `correta` 1 whose `placar` starts
with (in fact is) the record of "Bea" with 1 point; and the `pontos` of `b`
in the room is then 1. -/
theorem rodada_completa (a b : SocketId) (sorteados : List Sorteado) (c : String)
    (hc : gerarCodigoSala [] sorteados = some c) :
    executar Sistema.inicial
        [.criarSala a sorteados, .entrarSala b c (some "Bea"), .iniciarRodada a c,
          .responder b c (Numero.deNat 1), .disparar 0] =
      some (
        { estado :=
            { objetos :=
                [{ hostId := a, jogadores := [(b, { nome := "Bea", pontos := 1 })],
                   fase := .resultado, perguntaAtual := some obterPerguntaExemplo,
                   respostasRecebidas := [(b, Numero.deNat 1)] }],
              salas := [(c, 0)] },
          timers := [.retorno 0 c] },
        [[.join a c, .emit a (.salaCriada c)],
         [.join b c, .emit b (.entrouNaSala c "Bea"), .broadcast c (.estadoLobby ["Bea"])],
         [.broadcast c (.novaPergunta "Quanto é 2 + 2?" ["3", "4", "5", "22"] 15),
          .setTimeout (.prazo c) 15000],
         [.emit b .respostaRecebida],
         [.broadcast c (.resultadoRodada 1 [{ nome := "Bea", pontos := 1 }]),
          .setTimeout (.retorno 0 c) 5000]]) ∧
      [({ nome := "Bea", pontos := 1 } : Jogador)].head? = some { nome := "Bea", pontos := 1 } ∧
      jogadorDe
          { objetos :=
              [{ hostId := a, jogadores := [(b, { nome := "Bea", pontos := 1 })],
                 fase := .resultado, perguntaAtual := some obterPerguntaExemplo,
                 respostasRecebidas := [(b, Numero.deNat 1)] }],
            salas := [(c, 0)] } c b = some { nome := "Bea", pontos := 1 } := by
  refine ⟨?_, rfl, ?_⟩
  · simp [executar, passo, executarAcao, timersRestantes, armados, criarSala, hc,
      Sistema.inicial, Estado.vazio, entrarSala, Estado.sala?, Objeto.obter, Objeto.definir,
      salaNova, Estado.gravar, iniciarRodada, responder, Numero.isNaN, Numero.deNat,
      dispararTimer, finalizarRodada, pontuar, Numero.igual, placar, ordenarPlacar,
      Objeto.valores, nomes, nomeOuPadrao, obterPerguntaExemplo]
  · simp [jogadorDe, Estado.buscar, Estado.sala?, Objeto.obter]

theorem rodada_completa_witness :
    gerarCodigoSala [] [19, 20, 21, 22] = some "WXYZ" ∧
      jogadorDe
          { objetos :=
              [{ hostId := 1, jogadores := [(2, { nome := "Bea", pontos := 1 })],
                 fase := .resultado, perguntaAtual := some obterPerguntaExemplo,
                 respostasRecebidas := [(2, Numero.deNat 1)] }],
            salas := [("WXYZ", 0)] } "WXYZ" 2 = some { nome := "Bea", pontos := 1 } :=
  ⟨by decide, (rodada_completa 1 2 [19, 20, 21, 22] "WXYZ" (by decide)).2.2⟩

/-! ## Whose deadline it is (C17) -/

/-- C17, on the code: host 1 creates a room, 2 joins, 1 starts a round (turn
2), 2 gives the right answer, and 1 runs `iniciarRodada` again while the round
is open (turn 4), which starts a new round and arms a second deadline timer.
Two deadline timers are then armed, the first by turn 2; the current round of
the room was started by turn 4. The first timer fires and ends that round:
the room goes to "resultado" with the answer of 2 not counted. -/
theorem prazo_de_outra_rodada :
    (Marcado.apos [.criarSala 1 [0, 0, 0, 0], .entrarSala 2 "AAAA" (some "Bea"),
        .iniciarRodada 1 "AAAA", .responder 2 "AAAA" (.finito 1 0),
        .iniciarRodada 1 "AAAA"]).sistema.timers = [.prazo "AAAA", .prazo "AAAA"] ∧
      (Marcado.apos [.criarSala 1 [0, 0, 0, 0], .entrarSala 2 "AAAA" (some "Bea"),
        .iniciarRodada 1 "AAAA", .responder 2 "AAAA" (.finito 1 0),
        .iniciarRodada 1 "AAAA"]).armadoNo = [2, 4] ∧
      (Marcado.apos [.criarSala 1 [0, 0, 0, 0], .entrarSala 2 "AAAA" (some "Bea"),
        .iniciarRodada 1 "AAAA", .responder 2 "AAAA" (.finito 1 0),
        .iniciarRodada 1 "AAAA"]).sistema.estado.salas = [("AAAA", 0)] ∧
      (Marcado.apos [.criarSala 1 [0, 0, 0, 0], .entrarSala 2 "AAAA" (some "Bea"),
        .iniciarRodada 1 "AAAA", .responder 2 "AAAA" (.finito 1 0),
        .iniciarRodada 1 "AAAA"]).rodadaNo = [(0, 4)] ∧
      (passoMarcado (Marcado.apos [.criarSala 1 [0, 0, 0, 0],
        .entrarSala 2 "AAAA" (some "Bea"), .iniciarRodada 1 "AAAA",
        .responder 2 "AAAA" (.finito 1 0), .iniciarRodada 1 "AAAA"]) (.disparar 0)).map
          (fun r => ((r.1.sistema.estado.buscar "AAAA").map Sala.fase, r.1.armadoNo, r.2)) =
        some (some .resultado, [4, 5],
          [.broadcast "AAAA" (.resultadoRodada 1 [{ nome := "Bea", pontos := 0 }]),
           .setTimeout (.retorno 0 "AAAA") 5000]) := by
  decide

end MiniJackbox
